import Mathlib

/-! # go_rest_wallets: the wallet repository and its HTTP controller

A shallow embedding of `app/db.go` (`WalletsRepository`: `GetWalletById`, `Deposit`,
`Withdraw`, `walletTransaction`, `execQuery`; `ValidationError`) and of
`app/wallets_controller.go` (`GetWallet`, `UpdateWallet`, `writeResponse`,
`writeErrorResponse`), together with the `float64` arithmetic the repository relies on
(`<`, `+=`, `-=`), and the properties of the wallet transaction logic and of the response
mapping.

Layout: numerics (`Float64`), Go values (`Wallet`, `GoError`), the database connection
interface, the repository functions, an in-memory `wallets` table implementing the
connection, the controller, a reader for JSON error objects, then lemmas and theorems.
-/

/-! ## float64 -/

/-- Floor of the base-2 logarithm, by structural recursion on a fuel argument
(`0` on `0` and `1`). `bitLog n n` is `Nat.log2 n`. -/
def bitLog : Nat → Nat → Nat
  | 0, _ => 0
  | fuel + 1, n => if 2 ≤ n then bitLog fuel (n / 2) + 1 else 0

/-- Number of low bits of `n` that do not fit in a 53-bit significand. -/
def excessBits (n : Nat) : Nat := bitLog n n - 52

/-- Round a natural number to 53 significant bits, to nearest, ties to even
(the IEEE 754 default rounding used by Go for `float64` arithmetic). -/
def roundNE (n : Nat) : Nat :=
  let sh := excessBits n
  let q := n / 2 ^ sh
  let r := n % 2 ^ sh
  if 2 ^ sh < 2 * r ∨ (2 * r = 2 ^ sh ∧ q % 2 = 1) then (q + 1) * 2 ^ sh else q * 2 ^ sh

/-- Magnitudes are counted in units of `2^-1074` (the smallest positive `float64`):
every finite `float64` is an integer number of such units. `ovf = 2^1024` in these
units, the first magnitude that is no longer finite. -/
@[irreducible] def ovf : Nat := 2 ^ 2098

/-- One unit of `1.0`, in units of `2^-1074`. -/
@[irreducible] def one64 : Nat := 2 ^ 1074

/-- A magnitude (in units of `2^-1074`) is a finite `float64` magnitude when it is
below `2^1024` and has at most 53 significant bits. -/
def representable (n : Nat) : Bool :=
  decide (n < ovf) && decide (n % 2 ^ excessBits n = 0)

/-- The values of a `float64`: NaN, the two infinities, and the finite values
`± mag * 2^-1074` (both zeros included). -/
inductive FloatRepr where
  | nan
  | inf (neg : Bool)
  | fin (neg : Bool) (mag : Nat)
  deriving DecidableEq, Repr

namespace FloatRepr

/-- Well-formedness: a finite value carries a representable magnitude. -/
def valid : FloatRepr → Bool
  | fin _ n => representable n
  | _ => true

/-- Round the exact value `± n * 2^-1074` to a `float64`; overflow gives an infinity. -/
def round (neg : Bool) (n : Nat) : FloatRepr :=
  if roundNE n < ovf then fin neg (roundNE n) else inf neg

def isNaN : FloatRepr → Bool
  | nan => true
  | _ => false

/-- The position of a non-NaN value on the number line, in units of `2^-1074`;
the infinities sit at `± 2^1024`, beyond every finite value. -/
def toInt : FloatRepr → Int
  | nan => 0
  | inf false => (ovf : Int)
  | inf true => -(ovf : Int)
  | fin false n => (n : Int)
  | fin true n => -(n : Int)

def neg : FloatRepr → FloatRepr
  | nan => nan
  | inf s => inf (!s)
  | fin s n => fin (!s) n

/-- IEEE 754 addition, round to nearest even. -/
def add : FloatRepr → FloatRepr → FloatRepr
  | nan, _ => nan
  | _, nan => nan
  | inf a, inf b => if a = b then inf a else nan
  | inf a, fin _ _ => inf a
  | fin _ _, inf b => inf b
  | fin s1 n1, fin s2 n2 =>
    if s1 = s2 then round s1 (n1 + n2)
    else if n1 = n2 then fin false 0
    else if n2 < n1 then round s1 (n1 - n2)
    else round s2 (n2 - n1)

end FloatRepr

/-- A Go `float64`: a well-formed `FloatRepr`. NaN payloads are not distinguished
(Go arithmetic and comparisons cannot observe them). -/
structure Float64 where
  repr : FloatRepr
  wf : repr.valid = true

instance : DecidableEq Float64 := fun x y =>
  match x, y with
  | ⟨a, _⟩, ⟨b, _⟩ =>
    if h : a = b then isTrue (by subst h; rfl) else isFalse (fun e => h (congrArg Float64.repr e))

namespace Float64

/-- Package a computed representation. The fallback branch is never taken by the
operations below (`ofRepr_round`, `add_repr`): they only produce well-formed values. -/
def ofRepr (r : FloatRepr) : Float64 :=
  if h : r.valid = true then ⟨r, h⟩ else ⟨FloatRepr.nan, rfl⟩

def NaN : Float64 := ⟨FloatRepr.nan, rfl⟩

def Inf (neg : Bool) : Float64 := ⟨FloatRepr.inf neg, rfl⟩

/-- The constant `0` of the source (`amount < 0`): positive zero. -/
def zero : Float64 := ofRepr (FloatRepr.fin false 0)

/-- Conversion of an integer constant, e.g. `100.0`, `50.0`. -/
def ofInt (z : Int) : Float64 := ofRepr (FloatRepr.round (decide (z < 0)) (z.natAbs * one64))

def isNaN (x : Float64) : Bool := x.repr.isNaN

/-- Go `x + y` on `float64`. -/
def add (x y : Float64) : Float64 := ofRepr (x.repr.add y.repr)

/-- Go `x - y` on `float64` (IEEE 754: `x + (-y)`). -/
def sub (x y : Float64) : Float64 := ofRepr (x.repr.add y.repr.neg)

/-- Go `x < y`: false as soon as one side is NaN. -/
def lt (x y : Float64) : Bool :=
  !x.repr.isNaN && !y.repr.isNaN && decide (x.repr.toInt < y.repr.toInt)

/-- Go `x <= y`: false as soon as one side is NaN. -/
def le (x y : Float64) : Bool :=
  !x.repr.isNaN && !y.repr.isNaN && decide (x.repr.toInt ≤ y.repr.toInt)

/-- Go `x == y`: false as soon as one side is NaN; the two zeros are equal. -/
def eq (x y : Float64) : Bool :=
  !x.repr.isNaN && !y.repr.isNaN && decide (x.repr.toInt = y.repr.toInt)

/-- Neither NaN nor an infinity. -/
def isFinite (x : Float64) : Bool :=
  match x.repr with
  | FloatRepr.fin _ _ => true
  | _ => false

/-- The `float64` sum `x + y` is finite and carries no rounding error: it is the
exact sum of the two operands. -/
def exactSum (x y : Float64) : Bool :=
  (x.add y).isFinite && decide ((x.add y).repr.toInt = x.repr.toInt + y.repr.toInt)

end Float64

/-! ## Go values of package `app` -/

/-- `type Wallet struct { Id string; Amount float64 }`. -/
structure Wallet where
  Id : String
  Amount : Float64
  deriving DecidableEq

/-- Go `error` values that occur in the package: the sentinel `ErrWalletNotFound`,
a `*ValidationError`, the driver's `pgx.ErrNoRows`, a plain message error
(`errors.New`, `fmt.Errorf` without `%w`) and an error wrapping another one. -/
inductive GoError where
  | ErrWalletNotFound
  | ValidationError (Field Message : String)
  | ErrNoRows
  | New (text : String)
  | Wrap (text : String) (inner : GoError)
  deriving DecidableEq, Repr

/-- `errors.Is(err, pgx.ErrNoRows)`: the chain of `err` contains `pgx.ErrNoRows`. -/
def errorsIsErrNoRows : GoError → Bool
  | GoError.ErrNoRows => true
  | GoError.Wrap _ inner => errorsIsErrNoRows inner
  | _ => false

deriving instance DecidableEq for Except

/-! ## The database connection -/

/-- A statement argument (`args ...any`): the code passes strings and `float64`s. -/
inductive SqlValue where
  | text (s : String)
  | float (x : Float64)
  deriving DecidableEq

/-- A `pgx.Row`, by what its `Scan` answers for the two destination lists used in
the code: `Scan(&wallet.Id, &wallet.Amount)` and `Scan(&newId)`. -/
structure Row where
  ScanWallet : Except GoError (String × Float64)
  ScanId : Except GoError String

/-- `DbConnectionInterface`, state passing: each call returns the next connection state.
`Exec` returns the affected-row count of the command tag and the error. -/
structure DbConnectionInterface (σ : Type) where
  QueryRow : σ → String → List SqlValue → σ × Row
  Exec : σ → String → List SqlValue → σ × Nat × Option GoError

def selectWalletSql : String := "select id, amount from wallets where id = $1"

def insertAmountSql : String := "insert into wallets (amount) values ($1) returning id"

def insertWalletSql : String := "insert into wallets (id, amount) values ($1, $2)"

def updateWalletSql : String := "update wallets set amount = $1 where id = $2"

/-! ## `WalletsRepository` -/

section Repository

variable {σ : Type}

/-- `func (r *WalletsRepository) GetWalletById(id string) (*Wallet, error)`. -/
def GetWalletById (Conn : DbConnectionInterface σ) (s : σ) (id : String) :
    σ × Except GoError Wallet :=
  if id = "" then
    (s, Except.error (GoError.ValidationError "id" "cannot be empty"))
  else
    let q := Conn.QueryRow s selectWalletSql [SqlValue.text id]
    match q.2.ScanWallet with
    | Except.error err =>
      if errorsIsErrNoRows err then (q.1, Except.error GoError.ErrWalletNotFound)
      else (q.1, Except.error err)
    | Except.ok (wid, amt) => (q.1, Except.ok ⟨wid, amt⟩)

/-- `func (r *WalletsRepository) execQuery(query string, noRowsError error, args ...any) error`
(the 5 second timeout context is not modelled). -/
def execQuery (Conn : DbConnectionInterface σ) (s : σ) (query : String) (noRowsError : GoError)
    (args : List SqlValue) : σ × Option GoError :=
  let r := Conn.Exec s query args
  match r.2.2 with
  | some err => (r.1, some err)
  | none => if r.2.1 = 0 then (r.1, some noRowsError) else (r.1, none)

/-- `func (r *WalletsRepository) walletTransaction(id string, amount float64, add bool)`. -/
def walletTransaction (Conn : DbConnectionInterface σ) (s : σ) (id : String) (amount : Float64)
    (add : Bool) : σ × Except GoError Wallet :=
  if id = "" then
    if add then
      let q := Conn.QueryRow s insertAmountSql [SqlValue.float amount]
      match q.2.ScanId with
      | Except.error err => (q.1, Except.error err)
      | Except.ok newId => (q.1, Except.ok ⟨newId, amount⟩)
    else
      (s, Except.error (GoError.ValidationError "id" "cannot be empty"))
  else if amount.lt Float64.zero then
    (s, Except.error (GoError.ValidationError "amount" "must be positive"))
  else
    let g := GetWalletById Conn s id
    match g.2 with
    | Except.error GoError.ErrWalletNotFound =>
      if add then
        let msg := GoError.New ("failed to create new wallet with id " ++ id)
        let e := execQuery Conn g.1 insertWalletSql msg [SqlValue.text id, SqlValue.float amount]
        match e.2 with
        | some err => (e.1, Except.error err)
        | none => (e.1, Except.ok ⟨id, amount⟩)
      else
        (g.1, Except.error GoError.ErrWalletNotFound)
    | Except.error err => (g.1, Except.error err)
    | Except.ok wallet =>
      if !add && wallet.Amount.lt amount then
        (g.1, Except.error
          (GoError.ValidationError "amount" "cannot be greater than current wallet amount"))
      else
        let wallet1 : Wallet :=
          ⟨wallet.Id, if add then wallet.Amount.add amount else wallet.Amount.sub amount⟩
        let msg := GoError.New ("failed to update wallet with id " ++ id)
        let e := execQuery Conn g.1 updateWalletSql msg
          [SqlValue.float wallet1.Amount, SqlValue.text id]
        match e.2 with
        | some err => (e.1, Except.error err)
        | none => (e.1, Except.ok wallet1)

/-- `func (r *WalletsRepository) Deposit(id string, amount float64) (*Wallet, error)`. -/
def Deposit (Conn : DbConnectionInterface σ) (s : σ) (id : String) (amount : Float64) :
    σ × Except GoError Wallet :=
  walletTransaction Conn s id amount true

/-- `func (r *WalletsRepository) Withdraw(id string, amount float64) (*Wallet, error)`. -/
def Withdraw (Conn : DbConnectionInterface σ) (s : σ) (id : String) (amount : Float64) :
    σ × Except GoError Wallet :=
  walletTransaction Conn s id amount false

end Repository

/-! ## The `wallets` table -/

/-- Modelled from the spec: the external database, "a single table with columns `id`
(text primary key, server-generatable) and `amount` (numeric)". `rows` maps an id to
the stored amount; `serial` drives the server-side id generator. -/
structure Store where
  rows : String → Option Float64
  serial : Nat

namespace Store

def empty : Store := ⟨fun _ => none, 0⟩

/-- The table with the row `(id, amount)` written (inserted or overwritten). -/
def put (st : Store) (id : String) (amount : Float64) : Store :=
  ⟨fun k => if k = id then some amount else st.rows k, st.serial⟩

/-- The id the server generates next. -/
def freshId (st : Store) : String := "w" ++ toString st.serial

def failedRow (err : GoError) : Row := ⟨Except.error err, Except.error err⟩

def scanMismatch : GoError :=
  GoError.New "number of field descriptions must equal number of destinations"

/-- The statements of the repository, executed on the table. -/
def queryRow (st : Store) (sql : String) (args : List SqlValue) : Store × Row :=
  if sql = selectWalletSql then
    match args with
    | [SqlValue.text id] =>
      match st.rows id with
      | some amount => (st, ⟨Except.ok (id, amount), Except.error scanMismatch⟩)
      | none => (st, failedRow GoError.ErrNoRows)
    | _ => (st, failedRow (GoError.New "wrong statement arguments"))
  else if sql = insertAmountSql then
    match args with
    | [SqlValue.float amount] =>
      match st.rows st.freshId with
      | none =>
        (⟨(st.put st.freshId amount).rows, st.serial + 1⟩,
          ⟨Except.error scanMismatch, Except.ok st.freshId⟩)
      | some _ =>
        (⟨st.rows, st.serial + 1⟩,
          failedRow (GoError.New "duplicate key value violates unique constraint"))
    | _ => (st, failedRow (GoError.New "wrong statement arguments"))
  else (st, failedRow (GoError.New "unknown statement"))

def exec (st : Store) (sql : String) (args : List SqlValue) : Store × Nat × Option GoError :=
  if sql = insertWalletSql then
    match args with
    | [SqlValue.text id, SqlValue.float amount] =>
      match st.rows id with
      | none => (st.put id amount, 1, none)
      | some _ => (st, 0, some (GoError.New "duplicate key value violates unique constraint"))
    | _ => (st, 0, some (GoError.New "wrong statement arguments"))
  else if sql = updateWalletSql then
    match args with
    | [SqlValue.float amount, SqlValue.text id] =>
      match st.rows id with
      | some _ => (st.put id amount, 1, none)
      | none => (st, 0, none)
    | _ => (st, 0, some (GoError.New "wrong statement arguments"))
  else (st, 0, some (GoError.New "unknown statement"))

/-- The table as a `DbConnectionInterface`. -/
def conn : DbConnectionInterface Store := ⟨queryRow, exec⟩

end Store

/-- A statement as handed to the connection: the SQL text and its arguments. -/
abbrev Statement := String × List SqlValue

/-- A connection that also records, in order, every statement it is handed. -/
def traced {σ : Type} (Conn : DbConnectionInterface σ) :
    DbConnectionInterface (σ × List Statement) :=
  ⟨fun s sql args =>
      ((((Conn.QueryRow s.1 sql args).1), s.2 ++ [(sql, args)]), (Conn.QueryRow s.1 sql args).2),
   fun s sql args =>
      ((((Conn.Exec s.1 sql args).1), s.2 ++ [(sql, args)]), (Conn.Exec s.1 sql args).2)⟩

/-! ## Go errors: `Error()` and `errors.Is` -/

/-- The `Error()` string of an error value. For `*ValidationError` this is
`fmt.Sprintf("Validation error on field '%s': %s", e.Field, e.Message)`. -/
def GoError.Error : GoError → String
  | GoError.ErrWalletNotFound => "wallet not found"
  | GoError.ValidationError Field Message =>
    "Validation error on field '" ++ Field ++ "': " ++ Message
  | GoError.ErrNoRows => "no rows in result set"
  | GoError.New text => text
  | GoError.Wrap text _ => text

/-- `func (e *ValidationError) Is(target error) bool`: the type assertion
`target.(*ValidationError)` succeeds. The receiver's fields are not consulted. -/
def ValidationError.Is (_Field _Message : String) (target : GoError) : Bool :=
  match target with
  | GoError.ValidationError _ _ => true
  | _ => false

/-- `errors.Is(err, target)` for a target that is a freshly allocated `*ValidationError`
(as in `errors.Is(err, &ValidationError{})`): no error of the chain is identical to the
target, so the answer comes from the `Is` methods met while unwrapping. -/
def errorsIsValidationError (err : GoError) (targetField targetMessage : String) : Bool :=
  match err with
  | GoError.ValidationError Field Message =>
    ValidationError.Is Field Message (GoError.ValidationError targetField targetMessage)
  | GoError.Wrap _ inner => errorsIsValidationError inner targetField targetMessage
  | _ => false

/-! ## `WalletsController` -/

/-- A member value of a marshalled JSON object. -/
inductive JsonMember where
  | string (s : String)
  | number (x : Float64)
  deriving DecidableEq

/-- The JSON documents `json.Marshal` produces for a `*Wallet`: `null`, or an object
given by its members in order. -/
inductive Json where
  | null
  | object (members : List (String × JsonMember))
  deriving DecidableEq

/-- A response body: the bytes of a marshalled JSON document, or a byte string the
handler assembled itself. -/
inductive Body where
  | json (doc : Json)
  | text (bytes : String)
  deriving DecidableEq

/-- What the handler writes to the `http.ResponseWriter`: the status code passed to
`WriteHeader` and the bytes passed to `Write`. (`Header().Set` comes after `WriteHeader`
in the source and is not recorded.) -/
structure Response where
  statusCode : Nat
  body : Body
  deriving DecidableEq

/-- Modelled from the Go documentation of `encoding/json`: `json.Marshal` of a `*Wallet`.
A nil pointer encodes as `null`; a NaN or infinite `float64` is an
`UnsupportedValueError`; otherwise the struct tags give the members `id` and `amount`. -/
def jsonMarshal (w : Option Wallet) : Except GoError Json :=
  match w with
  | none => Except.ok Json.null
  | some w =>
    if w.Amount.isFinite then
      Except.ok (Json.object [("id", JsonMember.string w.Id), ("amount", JsonMember.number w.Amount)])
    else
      Except.error (GoError.New "json: unsupported value")

/-- `func (w *Wallet) ToJson() []byte`: the marshalled wallet, or `{}` when marshalling
fails. -/
def Wallet.ToJson (w : Option Wallet) : Json :=
  match jsonMarshal w with
  | Except.error _ => Json.object []
  | Except.ok jsonData => jsonData

/-- `func writeErrorResponse(writer, statusCode, message)`: the body is the
concatenation of `{"error": "`, the message and `"}`. -/
def writeErrorResponse (statusCode : Nat) (message : String) : Response :=
  ⟨statusCode, Body.text ("\x7b\"error\": \"" ++ message ++ "\"\x7d")⟩

/-- `func writeResponse(writer, wallet *Wallet, err error)`. -/
def writeResponse (wallet : Option Wallet) (err : Option GoError) : Response :=
  if err = some GoError.ErrWalletNotFound then
    writeErrorResponse 404 "Wallet not found"
  else
    match err with
    | some (GoError.ValidationError Field Message) =>
      writeErrorResponse 400 (GoError.ValidationError Field Message).Error
    | some e => writeErrorResponse 500 e.Error
    | none => ⟨200, Body.json (Wallet.ToJson wallet)⟩

/-- `WalletsRepositoryInterface`, state passing: each method returns the next state of
the implementation and the Go result pair `(*Wallet, error)`. -/
structure WalletsRepositoryInterface (ρ : Type) where
  GetWalletById : ρ → String → ρ × Option Wallet × Option GoError
  Deposit : ρ → String → Float64 → ρ × Option Wallet × Option GoError
  Withdraw : ρ → String → Float64 → ρ × Option Wallet × Option GoError

/-- The Go result pair of a repository method: exactly one side is non-nil. -/
def resultPair (r : Except GoError Wallet) : Option Wallet × Option GoError :=
  match r with
  | Except.ok w => (some w, none)
  | Except.error e => (none, some e)

/-- `*WalletsRepository` as a `WalletsRepositoryInterface` (as wired in `main.go`). -/
def WalletsRepository {σ : Type} (Conn : DbConnectionInterface σ) : WalletsRepositoryInterface σ :=
  ⟨fun s id => ((GetWalletById Conn s id).1, resultPair (GetWalletById Conn s id).2),
   fun s id amount => ((Deposit Conn s id amount).1, resultPair (Deposit Conn s id amount).2),
   fun s id amount => ((Withdraw Conn s id amount).1, resultPair (Withdraw Conn s id amount).2)⟩

/-- A call received by a repository. -/
inductive RepoCall where
  | GetWalletById (id : String)
  | Deposit (id : String) (amount : Float64)
  | Withdraw (id : String) (amount : Float64)
  deriving DecidableEq

/-- A repository that also records, in order, every call it receives. -/
def tracedRepo {ρ : Type} (repo : WalletsRepositoryInterface ρ) :
    WalletsRepositoryInterface (ρ × List RepoCall) :=
  ⟨fun s id =>
      (((repo.GetWalletById s.1 id).1, s.2 ++ [RepoCall.GetWalletById id]),
        (repo.GetWalletById s.1 id).2),
   fun s id amount =>
      (((repo.Deposit s.1 id amount).1, s.2 ++ [RepoCall.Deposit id amount]),
        (repo.Deposit s.1 id amount).2),
   fun s id amount =>
      (((repo.Withdraw s.1 id amount).1, s.2 ++ [RepoCall.Withdraw id amount]),
        (repo.Withdraw s.1 id amount).2)⟩

/-- Modelled from the Go documentation of `unicode.SimpleFold`: the canonical member of
the folding orbit of a rune, for the orbits that contain an ASCII rune: `A`-`Z` fold with
`a`-`z`, U+017F (long s) with `s`, U+212A (Kelvin sign) with `k`. -/
def foldRune (r : Char) : Char :=
  if r = Char.ofNat 0x17F then 's'
  else if r = Char.ofNat 0x212A then 'k'
  else r.toLower

def equalFoldRunes : List Char → List Char → Bool
  | [], [] => true
  | a :: as, b :: bs => (foldRune a == foldRune b) && equalFoldRunes as bs
  | _, _ => false

/-- Modelled from the Go documentation: `strings.EqualFold(s, t)`, equality under simple
Unicode case folding, for an ASCII `t` (the source compares with the literals `"DEPOSIT"`
and `"WITHDRAW"`). -/
def EqualFold (s t : String) : Bool := equalFoldRunes s.toList t.toList

/-- The anonymous struct `requestData` of `UpdateWallet`. -/
structure RequestData where
  WalletID : String
  OperationType : String
  Amount : Float64
  deriving DecidableEq

section Controller

variable {ρ : Type}

/-- `func (c *WalletsController) GetWallet(writer, request)`; `id` is `mux.Vars(request)["id"]`. -/
def GetWallet (repo : WalletsRepositoryInterface ρ) (s : ρ) (id : String) : ρ × Response :=
  let r := repo.GetWalletById s id
  (r.1, writeResponse r.2.1 r.2.2)

/-- `func (c *WalletsController) UpdateWallet(writer, request)`; `decoded` is the outcome of
`json.NewDecoder(request.Body).Decode(&requestData)`, `none` when it reports an error. -/
def UpdateWallet (repo : WalletsRepositoryInterface ρ) (s : ρ) (decoded : Option RequestData) :
    ρ × Response :=
  match decoded with
  | none => (s, writeErrorResponse 400 "Invalid JSON")
  | some requestData =>
    if EqualFold requestData.OperationType "DEPOSIT" then
      let r := repo.Deposit s requestData.WalletID requestData.Amount
      (r.1, writeResponse r.2.1 r.2.2)
    else if EqualFold requestData.OperationType "WITHDRAW" then
      let r := repo.Withdraw s requestData.WalletID requestData.Amount
      (r.1, writeResponse r.2.1 r.2.2)
    else
      (s, writeErrorResponse 400 "Invalid operation type")

end Controller

/-! ## Reading a JSON error object (RFC 8259) -/

/-- JSON insignificant whitespace. -/
def isJsonSpace (c : Char) : Bool :=
  c = ' ' || c = '\t' || c = '\n' || c = '\r'

def skipJsonSpace : List Char → List Char
  | [] => []
  | c :: cs => if isJsonSpace c then skipJsonSpace cs else c :: cs

/-- Value of a hexadecimal digit. -/
def hexDigit (c : Char) : Option Nat :=
  if '0' ≤ c ∧ c ≤ '9' then some (c.toNat - '0'.toNat)
  else if 'a' ≤ c ∧ c ≤ 'f' then some (c.toNat - 'a'.toNat + 10)
  else if 'A' ≤ c ∧ c ≤ 'F' then some (c.toNat - 'A'.toNat + 10)
  else none

/-- The code unit of `\uXXXX`, from the four characters after `\u`. -/
def hexQuad (a b c d : Char) : Option Nat :=
  match hexDigit a, hexDigit b, hexDigit c, hexDigit d with
  | some x, some y, some z, some w => some (((x * 16 + y) * 16 + z) * 16 + w)
  | _, _, _, _ => none

/-- Read the rest of a JSON string, after its opening quote: the characters it denotes
and what follows the closing quote. `none` when the text is no JSON string: it ends before
a closing quote, holds an unescaped control character, or an escape that JSON does not
have. (A `\uXXXX` escape denotes the character with that code; surrogate halves are not
paired.) -/
def readJsonString : List Char → Option (List Char × List Char)
  | [] => none
  | '"' :: rest => some ([], rest)
  | '\\' :: 'u' :: a :: b :: c :: d :: rest =>
    match hexQuad a b c d with
    | none => none
    | some n =>
      match readJsonString rest with
      | none => none
      | some (value, after) => some (Char.ofNat n :: value, after)
  | '\\' :: e :: rest =>
    let decoded : Option Char :=
      if e = '"' then some '"'
      else if e = '\\' then some '\\'
      else if e = '/' then some '/'
      else if e = 'b' then some (Char.ofNat 8)
      else if e = 'f' then some (Char.ofNat 12)
      else if e = 'n' then some '\n'
      else if e = 'r' then some '\r'
      else if e = 't' then some '\t'
      else none
    match decoded with
    | none => none
    | some ch =>
      match readJsonString rest with
      | none => none
      | some (value, after) => some (ch :: value, after)
  | c :: rest =>
    if c.toNat < 32 ∨ c = '\\' then none
    else
      match readJsonString rest with
      | none => none
      | some (value, after) => some (c :: value, after)

/-- Read a JSON string with its opening quote. -/
def readJsonQuoted : List Char → Option (List Char × List Char)
  | '"' :: rest => readJsonString rest
  | _ => none

/-- The text is a well-formed JSON object with the single member `"error"` whose value is
a string: the result is that string. `none` when the text is anything else. -/
def readErrorObject (text : String) : Option String :=
  match skipJsonSpace text.toList with
  | '\x7b' :: afterOpen =>
    match readJsonQuoted (skipJsonSpace afterOpen) with
    | some (key, afterKey) =>
      if key = "error".toList then
        match skipJsonSpace afterKey with
        | ':' :: afterColon =>
          match readJsonQuoted (skipJsonSpace afterColon) with
          | some (value, afterValue) =>
            match skipJsonSpace afterValue with
            | '\x7d' :: afterClose =>
              if skipJsonSpace afterClose = [] then some (String.mk value) else none
            | _ => none
          | none => none
        | _ => none
      else none
    | none => none
  | _ => none

/-- The error message carried by a response body, when the body is a well-formed JSON
error object. -/
def Body.errorMessage : Body → Option String
  | Body.text bytes => readErrorObject bytes
  | Body.json _ => none

/-- A connection on the table that loses the update: the row read by the select is gone
when the update arrives (deleted by another writer), so the update affects no row. -/
def Store.lostUpdateConn : DbConnectionInterface Store :=
  ⟨Store.queryRow, fun st _ _ => (st, 0, none)⟩

/-- A connection on the table whose `Exec` reports the error `err` and affects no row. -/
def Store.failingExecConn (err : GoError) : DbConnectionInterface Store :=
  ⟨Store.queryRow, fun st _ _ => (st, 0, some err)⟩

/-- The strings `s` and `t` differ at most in the (ASCII) case of their letters: `s` is an
upper/lower-case variant of `t`. -/
def isCaseVariant (s t : String) : Bool :=
  s.toList.map Char.toUpper == t.toList.map Char.toUpper

/-- The chain of an error: the error itself, then what `Unwrap` gives, and so on. -/
def GoError.chain : GoError → List GoError
  | GoError.Wrap text inner => GoError.Wrap text inner :: inner.chain
  | e => [e]

/-- The errors reported by `Exec` come from the database driver: none of them is a value
of package `app` (`ErrWalletNotFound` or a `*ValidationError`). This holds for the pgx
pool that `main.go` hands to the repository. -/
def ExecErrorsFromDriver {σ : Type} (Conn : DbConnectionInterface σ) : Prop :=
  ∀ (s : σ) (query : String) (args : List SqlValue) (e : GoError),
    (Conn.Exec s query args).2.2 = some e →
    e ≠ GoError.ErrWalletNotFound ∧ ∀ Field Message, e ≠ GoError.ValidationError Field Message

/-- A connection on the table whose rows fail to scan with the error `err`
(`makeErrorMockRow` of the tests). -/
def Store.failingScanConn (err : GoError) : DbConnectionInterface Store :=
  ⟨fun st _ _ => (st, Store.failedRow err), Store.exec⟩

/-- Case folding of a rune (Unicode `CaseFolding.txt`, statuses C and S), for the runes that
fold to an ASCII rune: `A`-`Z` fold to `a`-`z`, U+017F (long s) to `s`, U+212A (Kelvin sign)
to `k`; every other rune is taken as it is. -/
def caseFold (c : Char) : Char :=
  if 65 ≤ c.toNat ∧ c.toNat ≤ 90 then Char.ofNat (c.toNat + 32)
  else if c.toNat = 0x17F then 's'
  else if c.toNat = 0x212A then 'k'
  else c

/-- The strings `s` and `t` are equal ignoring letter case: a caseless match, equal after
case folding (stated for an ASCII `t`). -/
def equalIgnoringCase (s t : String) : Bool :=
  s.toList.map caseFold == t.toList.map caseFold

/-! ## Rounding lemmas -/

theorem bitLog_eq_log2 (fuel n : Nat) (h : n ≤ fuel) : bitLog fuel n = Nat.log2 n := by
  induction fuel generalizing n with
  | zero =>
    have : n = 0 := by omega
    subst this
    simp [bitLog, Nat.log2]
  | succ f ih =>
    rw [bitLog, Nat.log2]
    by_cases h2 : 2 ≤ n
    · have : n / 2 ≤ f := by omega
      simp [h2, ih _ this]
    · simp [h2]

theorem excessBits_eq (n : Nat) : excessBits n = Nat.log2 n - 52 := by
  unfold excessBits
  rw [bitLog_eq_log2 n n le_rfl]

theorem lt_pow_excessBits (n : Nat) : n < 2 ^ (excessBits n + 53) := by
  rw [excessBits_eq]
  have h1 : n < 2 ^ (n.log2 + 1) := Nat.lt_log2_self
  have h2 : n.log2 + 1 ≤ n.log2 - 52 + 53 := by omega
  exact lt_of_lt_of_le h1 (Nat.pow_le_pow_right (by decide) h2)

theorem pow_le_of_excessBits_pos (n : Nat) (h : 0 < excessBits n) :
    2 ^ (excessBits n + 52) ≤ n := by
  rw [excessBits_eq] at h ⊢
  have hn : n ≠ 0 := by
    rintro rfl
    simp [Nat.log2] at h
  have h1 : 2 ^ n.log2 ≤ n := Nat.log2_self_le hn
  have h2 : n.log2 - 52 + 52 = n.log2 := by omega
  rw [h2]
  exact h1

/-- The excess of `n` is at most `k` as soon as `n` is below `2^(k+53)`. -/
theorem excessBits_le_of_lt_pow (n k : Nat) (h : n < 2 ^ (k + 53)) : excessBits n ≤ k := by
  by_contra hk
  have hpos : 0 < excessBits n := by omega
  have h1 := pow_le_of_excessBits_pos n hpos
  have h2 : 2 ^ (k + 53) ≤ 2 ^ (excessBits n + 52) := Nat.pow_le_pow_right (by decide) (by omega)
  omega

/-- Representable magnitudes are exactly the products `m * 2^k` with a 53-bit `m`. -/
theorem dvd_of_significand (m k : Nat) (hm : m < 2 ^ 53) :
    (m * 2 ^ k) % 2 ^ excessBits (m * 2 ^ k) = 0 := by
  have hlt : m * 2 ^ k < 2 ^ (k + 53) := by
    rw [Nat.pow_add, Nat.mul_comm (2 ^ k)]
    exact Nat.mul_lt_mul_of_pos_right hm (Nat.pow_pos (by decide))
  have hle := excessBits_le_of_lt_pow _ _ hlt
  apply Nat.mod_eq_zero_of_dvd
  exact Dvd.dvd.mul_left (Nat.pow_dvd_pow 2 hle) m

theorem roundNE_cases (n : Nat) :
    roundNE n = (n / 2 ^ excessBits n) * 2 ^ excessBits n ∨
    roundNE n = (n / 2 ^ excessBits n + 1) * 2 ^ excessBits n := by
  unfold roundNE
  simp only
  split
  · exact Or.inr rfl
  · exact Or.inl rfl

theorem div_excess_lt (n : Nat) : n / 2 ^ excessBits n < 2 ^ 53 := by
  rw [Nat.div_lt_iff_lt_mul (Nat.pow_pos (by decide)), ← Nat.pow_add, Nat.add_comm]
  exact lt_pow_excessBits n

theorem roundNE_mod (n : Nat) : roundNE n % 2 ^ excessBits (roundNE n) = 0 := by
  rcases roundNE_cases n with h | h
  · rw [h]
    exact dvd_of_significand _ _ (div_excess_lt n)
  · rw [h]
    have hq := div_excess_lt n
    rcases Nat.lt_or_ge (n / 2 ^ excessBits n + 1) (2 ^ 53) with h1 | h1
    · exact dvd_of_significand _ _ h1
    · have h2 : n / 2 ^ excessBits n + 1 = 2 ^ 52 * 2 := by
        have : (2 : Nat) ^ 53 = 2 ^ 52 * 2 := by norm_num
        omega
      rw [h2, Nat.mul_assoc, ← Nat.pow_succ']
      exact dvd_of_significand _ _ (by norm_num)

theorem roundNE_representable (n : Nat) (h : roundNE n < ovf) :
    representable (roundNE n) = true := by
  simp [representable, h, roundNE_mod]

/-- Rounding leaves a representable magnitude unchanged. -/
theorem roundNE_of_mod (n : Nat) (h : n % 2 ^ excessBits n = 0) : roundNE n = n := by
  unfold roundNE
  simp only [h]
  have hpos : 0 < 2 ^ excessBits n := Nat.pow_pos (by decide)
  have h1 : ¬ (2 ^ excessBits n < 2 * 0 ∨ (2 * 0 = 2 ^ excessBits n ∧ n / 2 ^ excessBits n % 2 = 1)) := by
    omega
  rw [if_neg h1]
  exact Nat.div_mul_cancel (Nat.dvd_of_mod_eq_zero h)

/-- Truncation to 53 bits is a lower bound of rounding to nearest. -/
theorem trunc_le_roundNE (n : Nat) : (n / 2 ^ excessBits n) * 2 ^ excessBits n ≤ roundNE n := by
  rcases roundNE_cases n with h | h
  · rw [h]
  · rw [h]
    exact Nat.mul_le_mul_right _ (Nat.le_succ _)

/-- Rounding never crosses a representable magnitude from above: if `a` is
representable and `a ≤ x` then `a ≤ roundNE x`. -/
theorem le_roundNE (a x : Nat) (ha : a % 2 ^ excessBits a = 0) (hax : a ≤ x) :
    a ≤ roundNE x := by
  refine le_trans ?_ (trunc_le_roundNE x)
  have hpos : 0 < 2 ^ excessBits x := Nat.pow_pos (by decide)
  rcases Nat.lt_or_ge (excessBits a) (excessBits x) with hlt | hge
  · -- `a` lies in a lower binade than `x`
    have h1 : a < 2 ^ (excessBits a + 53) := lt_pow_excessBits a
    have h2 : 2 ^ (excessBits a + 53) ≤ 2 ^ (excessBits x + 52) :=
      Nat.pow_le_pow_right (by decide) (by omega)
    have h3 : 2 ^ (excessBits x + 52) ≤ x := pow_le_of_excessBits_pos x (by omega)
    have h4 : 2 ^ (excessBits x + 52) = 2 ^ 52 * 2 ^ excessBits x := by
      rw [Nat.add_comm, Nat.pow_add]
    have h5 : 2 ^ 52 ≤ x / 2 ^ excessBits x := by
      rw [Nat.le_div_iff_mul_le hpos, ← h4]
      exact h3
    calc a ≤ 2 ^ 52 * 2 ^ excessBits x := by omega
      _ ≤ (x / 2 ^ excessBits x) * 2 ^ excessBits x := Nat.mul_le_mul_right _ h5
  · -- `a` is a multiple of the spacing around `x`
    have hdvd : 2 ^ excessBits x ∣ a :=
      Dvd.dvd.trans (Nat.pow_dvd_pow 2 hge) (Nat.dvd_of_mod_eq_zero ha)
    obtain ⟨c, hc⟩ := hdvd
    have h1 : c ≤ x / 2 ^ excessBits x := by
      rw [Nat.le_div_iff_mul_le hpos, Nat.mul_comm, ← hc]
      exact hax
    calc a = c * 2 ^ excessBits x := by rw [hc, Nat.mul_comm]
      _ ≤ (x / 2 ^ excessBits x) * 2 ^ excessBits x := Nat.mul_le_mul_right _ h1

/-! ## `Float64` lemmas -/

theorem ovf_pos : 0 < ovf := by
  rw [ovf]
  apply Nat.pow_pos
  decide

theorem representable_zero : representable 0 = true := by
  have h := ovf_pos
  simp [representable, h]

theorem representable_lt (n : Nat) (h : representable n = true) : n < ovf := by
  simp [representable] at h
  exact h.1

theorem representable_mod (n : Nat) (h : representable n = true) :
    n % 2 ^ excessBits n = 0 := by
  simp [representable] at h
  exact h.2

theorem FloatRepr.round_valid (s : Bool) (n : Nat) : (FloatRepr.round s n).valid = true := by
  unfold FloatRepr.round
  split
  · rename_i h
    exact roundNE_representable n h
  · rfl

theorem FloatRepr.neg_valid (x : FloatRepr) (h : x.valid = true) : x.neg.valid = true := by
  cases x <;> simp [FloatRepr.neg, FloatRepr.valid] at h ⊢
  exact h

theorem FloatRepr.add_valid (x y : FloatRepr) : (x.add y).valid = true := by
  cases x <;> cases y <;> simp only [FloatRepr.add] <;> try rfl
  · split <;> rfl
  · split
    · exact FloatRepr.round_valid _ _
    · split
      · exact representable_zero
      · split <;> exact FloatRepr.round_valid _ _

theorem Float64.ofRepr_repr (r : FloatRepr) (h : r.valid = true) : (Float64.ofRepr r).repr = r := by
  simp [Float64.ofRepr, h]

/-- The sum never takes the fallback of `ofRepr`. -/
theorem Float64.add_repr (x y : Float64) : (x.add y).repr = x.repr.add y.repr :=
  Float64.ofRepr_repr _ (FloatRepr.add_valid _ _)

theorem Float64.sub_repr (x y : Float64) : (x.sub y).repr = x.repr.add y.repr.neg :=
  Float64.ofRepr_repr _ (FloatRepr.add_valid _ _)

theorem Float64.zero_repr : Float64.zero.repr = FloatRepr.fin false 0 :=
  Float64.ofRepr_repr _ representable_zero

theorem Float64.ofInt_repr (z : Int) :
    (Float64.ofInt z).repr = FloatRepr.round (decide (z < 0)) (z.natAbs * one64) :=
  Float64.ofRepr_repr _ (FloatRepr.round_valid _ _)

theorem Float64.ext_repr (x y : Float64) (h : x.repr = y.repr) : x = y := by
  cases x; cases y; cases h; rfl

/-- The position of a well-formed value lies within `[-2^1024, 2^1024]`. -/
theorem FloatRepr.toInt_bounds (x : FloatRepr) (h : x.valid = true) :
    -(ovf : Int) ≤ x.toInt ∧ x.toInt ≤ (ovf : Int) := by
  have hp := ovf_pos
  cases x with
  | nan => simp [FloatRepr.toInt]
  | inf s => cases s <;> simp [FloatRepr.toInt]
  | fin s n =>
    have hn := representable_lt n h
    cases s <;> simp [FloatRepr.toInt] <;> omega

/-- A finite value lies strictly inside `(-2^1024, 2^1024)`. -/
theorem FloatRepr.toInt_fin_bounds (s : Bool) (n : Nat) (h : (FloatRepr.fin s n).valid = true) :
    -(ovf : Int) < (FloatRepr.fin s n).toInt ∧ (FloatRepr.fin s n).toInt < (ovf : Int) := by
  have hn := representable_lt n h
  cases s <;> simp [FloatRepr.toInt] <;> omega

theorem Float64.lt_eq_false_of_le (x y : Float64) (h : x.le y = true) : y.lt x = false := by
  simp only [Float64.le, Float64.lt, Bool.and_eq_true, Bool.not_eq_true', decide_eq_true_eq] at h ⊢
  simp [h.1.1, h.1.2, not_lt.mpr h.2]

theorem Float64.le_of_lt (x y : Float64) (h : x.lt y = true) : x.le y = true := by
  simp only [Float64.le, Float64.lt, Bool.and_eq_true, Bool.not_eq_true', decide_eq_true_eq] at h ⊢
  exact ⟨h.1, Int.le_of_lt h.2⟩

theorem Float64.lt_irrefl_false (x y : Float64) (h : x.lt y = true) : y.lt x = false :=
  Float64.lt_eq_false_of_le x y (Float64.le_of_lt x y h)

theorem roundNE_zero : roundNE 0 = 0 := roundNE_of_mod 0 (Nat.zero_mod _)

theorem FloatRepr.round_isNaN (s : Bool) (n : Nat) : (FloatRepr.round s n).isNaN = false := by
  unfold FloatRepr.round
  split <;> rfl

theorem FloatRepr.round_false_toInt_nonneg (n : Nat) : 0 ≤ (FloatRepr.round false n).toInt := by
  unfold FloatRepr.round
  split <;> simp [FloatRepr.toInt]

theorem FloatRepr.round_zero (s : Bool) : FloatRepr.round s 0 = FloatRepr.fin s 0 := by
  unfold FloatRepr.round
  rw [roundNE_zero]
  simp [ovf_pos]

/-- Sign of a difference: when `a` is not negative and `b` is not below `a`, the
difference `b - a` is NaN or lies at or above zero. -/
theorem FloatRepr.sub_nonneg (a b : FloatRepr) (hb : b.valid = true)
    (ha0 : a.isNaN = false → 0 ≤ a.toInt)
    (hba : a.isNaN = false → b.isNaN = false → a.toInt ≤ b.toInt) :
    (b.add a.neg).isNaN = true ∨ 0 ≤ (b.add a.neg).toInt := by
  have hp := ovf_pos
  cases a with
  | nan => cases b <;> simp [FloatRepr.add, FloatRepr.neg, FloatRepr.isNaN]
  | inf sa =>
    cases sa with
    | true => simp [FloatRepr.isNaN, FloatRepr.toInt] at ha0; omega
    | false =>
      cases b with
      | nan => simp [FloatRepr.add, FloatRepr.neg, FloatRepr.isNaN]
      | inf sb =>
        cases sb with
        | false => simp [FloatRepr.add, FloatRepr.neg, FloatRepr.isNaN]
        | true => simp [FloatRepr.isNaN, FloatRepr.toInt] at hba; omega
      | fin sb nb =>
        have := (FloatRepr.toInt_fin_bounds sb nb hb).2
        simp [FloatRepr.isNaN, FloatRepr.toInt] at hba
        simp [FloatRepr.toInt] at this
        cases sb <;> simp [FloatRepr.toInt] at hba this <;> omega
  | fin sa na =>
    cases b with
    | nan => simp [FloatRepr.add, FloatRepr.neg, FloatRepr.isNaN]
    | inf sb =>
      cases sb with
      | false => simp [FloatRepr.add, FloatRepr.neg, FloatRepr.isNaN, FloatRepr.toInt]
      | true =>
        simp [FloatRepr.isNaN, FloatRepr.toInt] at hba ha0
        cases sa <;> simp [FloatRepr.toInt] at hba ha0 <;> omega
    | fin sb nb =>
      right
      simp [FloatRepr.isNaN] at hba ha0
      cases sa <;> cases sb <;> simp [FloatRepr.toInt] at hba ha0 <;>
        simp only [FloatRepr.add, FloatRepr.neg, Bool.not_true, Bool.not_false]
      · rw [if_neg (by decide)]
        split
        · simp [FloatRepr.toInt]
        · split
          · exact FloatRepr.round_false_toInt_nonneg _
          · omega
      · have h1 : na = 0 := by omega
        have h2 : nb = 0 := by omega
        subst h1 h2
        simp [FloatRepr.round_zero, FloatRepr.toInt]
      · simp only [if_true]
        exact FloatRepr.round_false_toInt_nonneg _
      · have h2 : nb = 0 := by omega
        subst ha0 h2
        simp [FloatRepr.toInt]

theorem FloatRepr.toInt_neg (x : FloatRepr) : x.neg.toInt = -x.toInt := by
  cases x with
  | nan => simp [FloatRepr.neg, FloatRepr.toInt]
  | inf s => cases s <;> simp [FloatRepr.neg, FloatRepr.toInt]
  | fin s n => cases s <;> simp [FloatRepr.neg, FloatRepr.toInt]

theorem FloatRepr.isNaN_neg (x : FloatRepr) : x.neg.isNaN = x.isNaN := by
  cases x <;> rfl

/-- Rounding an exact magnitude that is already representable gives that magnitude. -/
theorem FloatRepr.round_of_representable (s : Bool) (n : Nat) (h : representable n = true) :
    FloatRepr.round s n = FloatRepr.fin s n := by
  unfold FloatRepr.round
  rw [roundNE_of_mod n (representable_mod n h)]
  simp [representable_lt n h]

/-- Rounding upwards-closed: a representable magnitude below the exact value stays
below the rounded value. -/
theorem FloatRepr.le_round_toInt (a n : Nat) (ha : representable a = true) (h : a ≤ n) :
    (a : Int) ≤ (FloatRepr.round false n).toInt := by
  unfold FloatRepr.round
  split
  · simp only [FloatRepr.toInt]
    exact_mod_cast le_roundNE a n (representable_mod a ha) h
  · simp only [FloatRepr.toInt]
    exact_mod_cast le_of_lt (representable_lt a ha)

/-- A difference is NaN only from a NaN operand or from two infinities of one sign. -/
theorem FloatRepr.sub_isNaN (a b : FloatRepr) (h : (b.add a.neg).isNaN = true) :
    a.isNaN = true ∨ b.isNaN = true ∨ ∃ s, a = FloatRepr.inf s ∧ b = FloatRepr.inf s := by
  cases a with
  | nan => simp [FloatRepr.isNaN]
  | inf sa =>
    cases b with
    | nan => simp [FloatRepr.isNaN]
    | inf sb => cases sa <;> cases sb <;> simp [FloatRepr.add, FloatRepr.neg, FloatRepr.isNaN] at h ⊢
    | fin sb nb => simp [FloatRepr.add, FloatRepr.neg, FloatRepr.isNaN] at h
  | fin sa na =>
    cases b with
    | nan => simp [FloatRepr.isNaN]
    | inf sb => simp [FloatRepr.add, FloatRepr.neg, FloatRepr.isNaN] at h
    | fin sb nb =>
      exfalso
      simp only [FloatRepr.add, FloatRepr.neg] at h
      split at h
      · simp [FloatRepr.round_isNaN] at h
      · split at h
        · simp [FloatRepr.isNaN] at h
        · split at h <;> simp [FloatRepr.round_isNaN] at h

/-- Adding two values at or above zero gives a value (never NaN) at or above each
operand. -/
theorem FloatRepr.le_add_of_nonneg (a b : FloatRepr) (hva : a.valid = true)
    (hvb : b.valid = true) (hna : a.isNaN = false) (hnb : b.isNaN = false)
    (ha0 : 0 ≤ a.toInt) (hb0 : 0 ≤ b.toInt) :
    (b.add a).isNaN = false ∧ a.toInt ≤ (b.add a).toInt := by
  have hp := ovf_pos
  have hba := FloatRepr.toInt_bounds a hva
  cases a with
  | nan => simp [FloatRepr.isNaN] at hna
  | inf sa =>
    cases sa with
    | true => simp [FloatRepr.toInt] at ha0; omega
    | false =>
      cases b with
      | nan => simp [FloatRepr.isNaN] at hnb
      | inf sb =>
        cases sb with
        | true => simp [FloatRepr.toInt] at hb0; omega
        | false => simp [FloatRepr.add, FloatRepr.isNaN]
      | fin sb nb => simp [FloatRepr.add, FloatRepr.isNaN]
  | fin sa na =>
    cases b with
    | nan => simp [FloatRepr.isNaN] at hnb
    | inf sb =>
      cases sb with
      | true => simp [FloatRepr.toInt] at hb0; omega
      | false =>
        simp only [FloatRepr.add, FloatRepr.isNaN, true_and]
        simpa [FloatRepr.toInt] using hba.2
    | fin sb nb =>
      have hra : representable na = true := hva
      have hrb : representable nb = true := hvb
      cases sa <;> cases sb <;> simp [FloatRepr.toInt] at ha0 hb0 <;>
        simp only [FloatRepr.add, FloatRepr.toInt]
      · simp only [if_true, FloatRepr.round_isNaN, true_and]
        exact FloatRepr.le_round_toInt na (nb + na) hra (by omega)
      · subst hb0
        rw [if_neg (by decide)]
        split
        · rename_i h; subst h; simp [FloatRepr.isNaN, FloatRepr.toInt]
        · rw [if_neg (by omega)]
          simp only [FloatRepr.round_isNaN, true_and]
          exact FloatRepr.le_round_toInt na (na - 0) hra (by omega)
      · subst ha0
        rw [if_neg (by decide)]
        split
        · simp [FloatRepr.isNaN, FloatRepr.toInt]
        · split
          · simp only [FloatRepr.round_isNaN, true_and]
            simpa using FloatRepr.round_false_toInt_nonneg (nb - 0)
          · omega
      · subst ha0 hb0
        simp [FloatRepr.round_zero, FloatRepr.isNaN, FloatRepr.toInt]

/-- An addition of finite values whose exact result is representable is exact. -/
theorem FloatRepr.add_fin_exact (s1 s2 : Bool) (n1 n2 : Nat)
    (h : representable ((FloatRepr.fin s1 n1).toInt + (FloatRepr.fin s2 n2).toInt).natAbs = true) :
    ((FloatRepr.fin s1 n1).add (FloatRepr.fin s2 n2)).isNaN = false ∧
    ((FloatRepr.fin s1 n1).add (FloatRepr.fin s2 n2)).toInt =
      (FloatRepr.fin s1 n1).toInt + (FloatRepr.fin s2 n2).toInt := by
  cases s1 <;> cases s2 <;> simp only [FloatRepr.toInt] at h ⊢ <;> simp only [FloatRepr.add]
  · have e : ((n1 : Int) + (n2 : Int)).natAbs = n1 + n2 := by omega
    rw [e] at h
    simp [FloatRepr.round_of_representable _ _ h, FloatRepr.isNaN, FloatRepr.toInt]
  · rw [if_neg (by decide)]
    split
    · rename_i e; subst e; simp [FloatRepr.isNaN, FloatRepr.toInt]
    · split
      · have e : ((n1 : Int) + -(n2 : Int)).natAbs = n1 - n2 := by omega
        rw [e] at h
        simp [FloatRepr.round_of_representable _ _ h, FloatRepr.isNaN, FloatRepr.toInt]
        omega
      · have e : ((n1 : Int) + -(n2 : Int)).natAbs = n2 - n1 := by omega
        rw [e] at h
        simp [FloatRepr.round_of_representable _ _ h, FloatRepr.isNaN, FloatRepr.toInt]
        omega
  · rw [if_neg (by decide)]
    split
    · rename_i e; subst e; simp [FloatRepr.isNaN, FloatRepr.toInt]
    · split
      · have e : (-(n1 : Int) + (n2 : Int)).natAbs = n1 - n2 := by omega
        rw [e] at h
        simp [FloatRepr.round_of_representable _ _ h, FloatRepr.isNaN, FloatRepr.toInt]
        omega
      · have e : (-(n1 : Int) + (n2 : Int)).natAbs = n2 - n1 := by omega
        rw [e] at h
        simp [FloatRepr.round_of_representable _ _ h, FloatRepr.isNaN, FloatRepr.toInt]
        omega
  · have e : (-(n1 : Int) + -(n2 : Int)).natAbs = n1 + n2 := by omega
    rw [e] at h
    simp [FloatRepr.round_of_representable _ _ h, FloatRepr.isNaN, FloatRepr.toInt]
    omega

/-- Exact round trip on representations: if the sum `b + a` is finite and carries no
rounding error, subtracting `a` again gives the position of `b`. -/
theorem FloatRepr.add_sub_cancel_of_exact (a b : FloatRepr) (hvb : b.valid = true)
    (hfin : ∃ s k, b.add a = FloatRepr.fin s k)
    (hexact : (b.add a).toInt = b.toInt + a.toInt) :
    ((b.add a).add a.neg).isNaN = false ∧ ((b.add a).add a.neg).toInt = b.toInt := by
  obtain ⟨s, k, hk⟩ := hfin
  cases a with
  | nan => cases b <;> simp [FloatRepr.add] at hk
  | inf sa =>
    cases b with
    | nan => simp [FloatRepr.add] at hk
    | inf sb => simp only [FloatRepr.add] at hk; split at hk <;> simp at hk
    | fin sb nb => simp [FloatRepr.add] at hk
  | fin sa na =>
    cases b with
    | nan => simp [FloatRepr.add] at hk
    | inf sb => simp [FloatRepr.add] at hk
    | fin sb nb =>
      rw [hk] at hexact ⊢
      have hrb : representable nb = true := by simpa [FloatRepr.valid] using hvb
      have key : ((FloatRepr.fin s k).toInt + (FloatRepr.fin (!sa) na).toInt).natAbs = nb := by
        have h1 : (FloatRepr.fin (!sa) na).toInt = -(FloatRepr.fin sa na).toInt :=
          FloatRepr.toInt_neg (FloatRepr.fin sa na)
        rw [h1, hexact]
        cases sb <;> simp [FloatRepr.toInt]
      have h2 := FloatRepr.add_fin_exact s (!sa) k na (by rw [key]; exact hrb)
      refine ⟨h2.1, ?_⟩
      show ((FloatRepr.fin s k).add (FloatRepr.fin (!sa) na)).toInt = _
      rw [h2.2, hexact]
      have h1 : (FloatRepr.fin (!sa) na).toInt = -(FloatRepr.fin sa na).toInt :=
        FloatRepr.toInt_neg (FloatRepr.fin sa na)
      rw [h1]
      omega

theorem Float64.zero_isNaN : Float64.zero.repr.isNaN = false := by
  rw [Float64.zero_repr]; rfl

theorem Float64.zero_toInt : Float64.zero.repr.toInt = 0 := by
  rw [Float64.zero_repr]; rfl

theorem Float64.lt_zero_eq_false (a : Float64) (h : a.lt Float64.zero = false) :
    a.repr.isNaN = false → 0 ≤ a.repr.toInt := by
  intro hn
  simp [Float64.lt, hn, Float64.zero_isNaN, Float64.zero_toInt] at h
  exact h

theorem Float64.zero_le_iff (a : Float64) :
    Float64.zero.le a = true ↔ a.repr.isNaN = false ∧ 0 ≤ a.repr.toInt := by
  simp [Float64.le, Float64.zero_isNaN, Float64.zero_toInt]

/-- A withdrawal that passes both guards never leaves a negative amount:
`!(a < 0)` and `!(b < a)` give `!(b - a < 0)`. -/
theorem Float64.sub_not_lt_zero (a b : Float64) (ha : a.lt Float64.zero = false)
    (hb : b.lt a = false) : (b.sub a).lt Float64.zero = false := by
  have h0 := Float64.lt_zero_eq_false a ha
  have hba : a.repr.isNaN = false → b.repr.isNaN = false → a.repr.toInt ≤ b.repr.toInt := by
    intro h1 h2
    simp [Float64.lt, h1, h2] at hb
    exact hb
  have key := FloatRepr.sub_nonneg a.repr b.repr b.wf h0 hba
  simp only [Float64.lt, Float64.sub_repr, Float64.zero_isNaN, Float64.zero_toInt]
  rcases key with h | h
  · simp [h]
  · simp [not_lt.mpr h]

/-- With operands that are not NaN and not both `+Inf`, the difference that passes
both guards is `>= 0`. -/
theorem Float64.zero_le_sub (a b : Float64) (ha : a.lt Float64.zero = false)
    (hb : b.lt a = false) (hna : a.isNaN = false) (hnb : b.isNaN = false)
    (hinf : ¬ (a = Float64.Inf false ∧ b = Float64.Inf false)) :
    Float64.zero.le (b.sub a) = true := by
  have h0 := Float64.lt_zero_eq_false a ha
  have hba : a.repr.isNaN = false → b.repr.isNaN = false → a.repr.toInt ≤ b.repr.toInt := by
    intro h1 h2
    simp [Float64.lt, h1, h2] at hb
    exact hb
  have key := FloatRepr.sub_nonneg a.repr b.repr b.wf h0 hba
  have hnan : (b.repr.add a.repr.neg).isNaN = false := by
    by_contra hc
    simp only [Bool.not_eq_false] at hc
    rcases FloatRepr.sub_isNaN a.repr b.repr hc with h | h | ⟨s, h1, h2⟩
    · simp [Float64.isNaN] at hna; simp [hna] at h
    · simp [Float64.isNaN] at hnb; simp [hnb] at h
    · cases s with
      | false =>
        exact hinf ⟨Float64.ext_repr _ _ h1, Float64.ext_repr _ _ h2⟩
      | true =>
        have := h0 (by rw [h1]; rfl)
        rw [h1] at this
        have hp := ovf_pos
        simp [FloatRepr.toInt] at this
        omega
  rw [Float64.zero_le_iff, Float64.sub_repr]
  refine ⟨hnan, ?_⟩
  rcases key with h | h
  · simp [hnan] at h
  · exact h

/-- After adding `a >= 0` to `b >= 0` the balance is not below `a`. -/
theorem Float64.add_not_lt (a b : Float64) (ha : Float64.zero.le a = true)
    (hb : Float64.zero.le b = true) : (b.add a).lt a = false := by
  rw [Float64.zero_le_iff] at ha hb
  have key := FloatRepr.le_add_of_nonneg a.repr b.repr a.wf b.wf ha.1 hb.1 ha.2 hb.2
  simp [Float64.lt, Float64.add_repr, key.1, ha.1, not_lt.mpr key.2]

/-- Exact round trip: when `b + a` is finite and exact, `(b + a) - a == b`. -/
theorem Float64.add_sub_eq (a b : Float64) (h : Float64.exactSum b a = true) :
    ((b.add a).sub a).eq b = true := by
  simp only [Float64.exactSum, Float64.isFinite, Bool.and_eq_true, decide_eq_true_eq] at h
  obtain ⟨hfin, hexact⟩ := h
  rw [Float64.add_repr] at hfin hexact
  have hfin2 : ∃ s k, b.repr.add a.repr = FloatRepr.fin s k := by
    cases hr : b.repr.add a.repr with
    | nan => rw [hr] at hfin; simp at hfin
    | inf s => rw [hr] at hfin; simp at hfin
    | fin s k => exact ⟨s, k, rfl⟩
  have key := FloatRepr.add_sub_cancel_of_exact a.repr b.repr b.wf hfin2 hexact
  have hbn : b.repr.isNaN = false := by
    obtain ⟨s, k, hk⟩ := hfin2
    cases hb : b.repr with
    | nan => rw [hb] at hk; simp [FloatRepr.add] at hk
    | inf s => rfl
    | fin s n => rfl
  simp [Float64.eq, Float64.sub_repr, Float64.add_repr, key.1, key.2, hbn]

/-! ## Repository lemmas -/

section RepositoryLemmas

variable {σ : Type} (Conn : DbConnectionInterface σ)

theorem traced_QueryRow (s : σ × List Statement) (sql : String) (args : List SqlValue) :
    (traced Conn).QueryRow s sql args =
      (((Conn.QueryRow s.1 sql args).1, s.2 ++ [(sql, args)]), (Conn.QueryRow s.1 sql args).2) :=
  rfl

theorem traced_Exec (s : σ × List Statement) (sql : String) (args : List SqlValue) :
    (traced Conn).Exec s sql args =
      (((Conn.Exec s.1 sql args).1, s.2 ++ [(sql, args)]), (Conn.Exec s.1 sql args).2) :=
  rfl

theorem GetWalletById_found (s : σ) (id wid : String) (b : Float64) (hid : id ≠ "")
    (h : (Conn.QueryRow s selectWalletSql [SqlValue.text id]).2.ScanWallet = Except.ok (wid, b)) :
    GetWalletById Conn s id =
      ((Conn.QueryRow s selectWalletSql [SqlValue.text id]).1, Except.ok ⟨wid, b⟩) := by
  simp [GetWalletById, hid, h]

theorem GetWalletById_noRows (s : σ) (id : String) (e : GoError) (hid : id ≠ "")
    (h : (Conn.QueryRow s selectWalletSql [SqlValue.text id]).2.ScanWallet = Except.error e)
    (he : errorsIsErrNoRows e = true) :
    GetWalletById Conn s id =
      ((Conn.QueryRow s selectWalletSql [SqlValue.text id]).1,
        Except.error GoError.ErrWalletNotFound) := by
  simp [GetWalletById, hid, h, he]

/-- The update path of `walletTransaction` (source lines 136-153), once the wallet
has been read. -/
theorem walletTransaction_found (s : σ) (id wid : String) (a b : Float64) (add : Bool)
    (hid : id ≠ "") (ha : a.lt Float64.zero = false)
    (h : (Conn.QueryRow s selectWalletSql [SqlValue.text id]).2.ScanWallet = Except.ok (wid, b)) :
    walletTransaction Conn s id a add =
      if !add && b.lt a then
        ((Conn.QueryRow s selectWalletSql [SqlValue.text id]).1, Except.error
          (GoError.ValidationError "amount" "cannot be greater than current wallet amount"))
      else
        match (execQuery Conn (Conn.QueryRow s selectWalletSql [SqlValue.text id]).1
            updateWalletSql (GoError.New ("failed to update wallet with id " ++ id))
            [SqlValue.float (if add then b.add a else b.sub a), SqlValue.text id]).2 with
        | some err =>
          ((execQuery Conn (Conn.QueryRow s selectWalletSql [SqlValue.text id]).1
            updateWalletSql (GoError.New ("failed to update wallet with id " ++ id))
            [SqlValue.float (if add then b.add a else b.sub a), SqlValue.text id]).1,
            Except.error err)
        | none =>
          ((execQuery Conn (Conn.QueryRow s selectWalletSql [SqlValue.text id]).1
            updateWalletSql (GoError.New ("failed to update wallet with id " ++ id))
            [SqlValue.float (if add then b.add a else b.sub a), SqlValue.text id]).1,
            Except.ok ⟨wid, if add then b.add a else b.sub a⟩) := by
  simp [walletTransaction, hid, ha, GetWalletById_found Conn s id wid b hid h]

/-- The not-found path of `walletTransaction` (source lines 117-130). -/
theorem walletTransaction_notFound (s : σ) (id : String) (a : Float64) (add : Bool)
    (e : GoError) (hid : id ≠ "") (ha : a.lt Float64.zero = false)
    (h : (Conn.QueryRow s selectWalletSql [SqlValue.text id]).2.ScanWallet = Except.error e)
    (he : errorsIsErrNoRows e = true) :
    walletTransaction Conn s id a add =
      if add then
        match (execQuery Conn (Conn.QueryRow s selectWalletSql [SqlValue.text id]).1
            insertWalletSql (GoError.New ("failed to create new wallet with id " ++ id))
            [SqlValue.text id, SqlValue.float a]).2 with
        | some err =>
          ((execQuery Conn (Conn.QueryRow s selectWalletSql [SqlValue.text id]).1
            insertWalletSql (GoError.New ("failed to create new wallet with id " ++ id))
            [SqlValue.text id, SqlValue.float a]).1, Except.error err)
        | none =>
          ((execQuery Conn (Conn.QueryRow s selectWalletSql [SqlValue.text id]).1
            insertWalletSql (GoError.New ("failed to create new wallet with id " ++ id))
            [SqlValue.text id, SqlValue.float a]).1, Except.ok ⟨id, a⟩)
      else
        ((Conn.QueryRow s selectWalletSql [SqlValue.text id]).1,
          Except.error GoError.ErrWalletNotFound) := by
  simp [walletTransaction, hid, ha, GetWalletById_noRows Conn s id e hid h he]

theorem execQuery_ok (s : σ) (query : String) (noRows : GoError) (args : List SqlValue)
    (n : Nat) (h : (Conn.Exec s query args).2 = (n, none)) (hn : n ≠ 0) :
    execQuery Conn s query noRows args = ((Conn.Exec s query args).1, none) := by
  have h1 : (Conn.Exec s query args).2.2 = none := by rw [h]
  have h2 : (Conn.Exec s query args).2.1 = n := by rw [h]
  simp [execQuery, h1, h2, hn]

end RepositoryLemmas

/-! ## Lemmas on the `wallets` table -/

theorem Store.select_found (st : Store) (id : String) (b : Float64) (h : st.rows id = some b) :
    Store.conn.QueryRow st selectWalletSql [SqlValue.text id] =
      (st, ⟨Except.ok (id, b), Except.error Store.scanMismatch⟩) := by
  simp [Store.conn, Store.queryRow, h]

theorem Store.select_absent (st : Store) (id : String) (h : st.rows id = none) :
    Store.conn.QueryRow st selectWalletSql [SqlValue.text id] =
      (st, Store.failedRow GoError.ErrNoRows) := by
  simp [Store.conn, Store.queryRow, h]

theorem Store.update_found (st : Store) (id : String) (b x : Float64) (h : st.rows id = some b) :
    Store.conn.Exec st updateWalletSql [SqlValue.float x, SqlValue.text id] =
      (st.put id x, 1, none) := by
  have h1 : updateWalletSql ≠ insertWalletSql := by decide
  simp [Store.conn, Store.exec, h, h1]

theorem Store.insert_absent (st : Store) (id : String) (x : Float64) (h : st.rows id = none) :
    Store.conn.Exec st insertWalletSql [SqlValue.text id, SqlValue.float x] =
      (st.put id x, 1, none) := by
  simp [Store.conn, Store.exec, h]

section RepositoryOutcomes

variable {σ : Type} (Conn : DbConnectionInterface σ)

/-- The update path with a successful update statement. -/
theorem walletTransaction_update_ok (s : σ) (id wid : String) (a b : Float64) (add : Bool)
    (n : Nat) (hid : id ≠ "") (ha : a.lt Float64.zero = false)
    (hsel : (Conn.QueryRow s selectWalletSql [SqlValue.text id]).2.ScanWallet = Except.ok (wid, b))
    (hguard : (!add && b.lt a) = false)
    (hupd : (Conn.Exec (Conn.QueryRow s selectWalletSql [SqlValue.text id]).1 updateWalletSql
      [SqlValue.float (if add then b.add a else b.sub a), SqlValue.text id]).2 = (n, none))
    (hn : n ≠ 0) :
    walletTransaction Conn s id a add =
      ((Conn.Exec (Conn.QueryRow s selectWalletSql [SqlValue.text id]).1 updateWalletSql
          [SqlValue.float (if add then b.add a else b.sub a), SqlValue.text id]).1,
        Except.ok ⟨wid, if add then b.add a else b.sub a⟩) := by
  rw [walletTransaction_found Conn s id wid a b add hid ha hsel, hguard,
    execQuery_ok Conn _ _ _ _ n hupd hn]
  simp

/-- The create-on-deposit path with a successful insert statement. -/
theorem walletTransaction_insert_ok (s : σ) (id : String) (a : Float64) (e : GoError)
    (n : Nat) (hid : id ≠ "") (ha : a.lt Float64.zero = false)
    (hsel : (Conn.QueryRow s selectWalletSql [SqlValue.text id]).2.ScanWallet = Except.error e)
    (he : errorsIsErrNoRows e = true)
    (hins : (Conn.Exec (Conn.QueryRow s selectWalletSql [SqlValue.text id]).1 insertWalletSql
      [SqlValue.text id, SqlValue.float a]).2 = (n, none))
    (hn : n ≠ 0) :
    walletTransaction Conn s id a true =
      ((Conn.Exec (Conn.QueryRow s selectWalletSql [SqlValue.text id]).1 insertWalletSql
          [SqlValue.text id, SqlValue.float a]).1, Except.ok ⟨id, a⟩) := by
  rw [walletTransaction_notFound Conn s id a true e hid ha hsel he,
    execQuery_ok Conn _ _ _ _ n hins hn]
  simp

end RepositoryOutcomes

theorem Store.put_rows_self (st : Store) (id : String) (x : Float64) :
    (st.put id x).rows id = some x := by
  simp [Store.put]

/-- Every outcome of `walletTransaction` on the table for a non-empty id and an amount that
passes the sign check, with the statements issued. -/
theorem Store.transaction_outcome (st : Store) (id : String) (a : Float64) (add : Bool)
    (hid : id ≠ "") (ha : a.lt Float64.zero = false) :
    walletTransaction (traced Store.conn) (st, []) id a add =
      match st.rows id with
      | none =>
        if add then
          ((st.put id a, [(selectWalletSql, [SqlValue.text id]),
            (insertWalletSql, [SqlValue.text id, SqlValue.float a])]), Except.ok ⟨id, a⟩)
        else
          ((st, [(selectWalletSql, [SqlValue.text id])]), Except.error GoError.ErrWalletNotFound)
      | some b =>
        if !add && b.lt a then
          ((st, [(selectWalletSql, [SqlValue.text id])]), Except.error
            (GoError.ValidationError "amount" "cannot be greater than current wallet amount"))
        else
          ((st.put id (if add then b.add a else b.sub a),
            [(selectWalletSql, [SqlValue.text id]),
             (updateWalletSql,
               [SqlValue.float (if add then b.add a else b.sub a), SqlValue.text id])]),
            Except.ok ⟨id, if add then b.add a else b.sub a⟩) := by
  cases hb : st.rows id with
  | none =>
    have hsel : ((traced Store.conn).QueryRow (st, []) selectWalletSql
        [SqlValue.text id]).2.ScanWallet = Except.error GoError.ErrNoRows := by
      rw [traced_QueryRow, Store.select_absent st id hb]; rfl
    cases add with
    | false =>
      rw [walletTransaction_notFound (traced Store.conn) (st, []) id a false
        GoError.ErrNoRows hid ha hsel rfl]
      simp [traced_QueryRow, Store.select_absent st id hb]
    | true =>
      have hins : ((traced Store.conn).Exec ((traced Store.conn).QueryRow (st, [])
          selectWalletSql [SqlValue.text id]).1 insertWalletSql
          [SqlValue.text id, SqlValue.float a]).2 = (1, none) := by
        rw [traced_Exec, traced_QueryRow, Store.select_absent st id hb,
          Store.insert_absent st id _ hb]
      rw [walletTransaction_insert_ok (traced Store.conn) (st, []) id a GoError.ErrNoRows 1
        hid ha hsel rfl hins (by decide)]
      simp [traced_Exec, traced_QueryRow, Store.select_absent st id hb,
        Store.insert_absent st id _ hb]
  | some b =>
    have hsel : ((traced Store.conn).QueryRow (st, []) selectWalletSql
        [SqlValue.text id]).2.ScanWallet = Except.ok (id, b) := by
      rw [traced_QueryRow, Store.select_found st id b hb]
    have hfound := walletTransaction_found (traced Store.conn) (st, []) id id a b add hid ha hsel
    have hupd : ((traced Store.conn).Exec ((traced Store.conn).QueryRow (st, [])
        selectWalletSql [SqlValue.text id]).1 updateWalletSql
        [SqlValue.float (if add then b.add a else b.sub a), SqlValue.text id]).2
        = (1, none) := by
      rw [traced_Exec, traced_QueryRow, Store.select_found st id b hb,
        Store.update_found st id b _ hb]
    cases add with
    | true =>
      rw [walletTransaction_update_ok (traced Store.conn) (st, []) id id a b true 1 hid ha
        hsel (by simp) hupd (by decide)]
      simp [traced_Exec, traced_QueryRow, Store.select_found st id b hb,
        Store.update_found st id b _ hb]
    | false =>
      cases hlt : b.lt a with
      | true =>
        rw [hfound]
        simp [hlt, traced_QueryRow, Store.select_found st id b hb]
      | false =>
        rw [walletTransaction_update_ok (traced Store.conn) (st, []) id id a b false 1 hid ha
          hsel (by simp [hlt]) hupd (by decide)]
        simp [hlt, traced_Exec, traced_QueryRow, Store.select_found st id b hb,
          Store.update_found st id b _ hb]

/-- The sign check of `walletTransaction` (source lines 111-113): nothing is handed to the
connection. -/
theorem walletTransaction_negative {σ : Type} (Conn : DbConnectionInterface σ) (s : σ)
    (id : String) (a : Float64) (add : Bool) (hid : id ≠ "") (ha : a.lt Float64.zero = true) :
    walletTransaction Conn s id a add =
      (s, Except.error (GoError.ValidationError "amount" "must be positive")) := by
  simp [walletTransaction, hid, ha]

/-- On the table the "must be positive" error is returned exactly for `amount < 0`. -/
theorem Store.must_be_positive_iff (st : Store) (id : String) (a : Float64) (add : Bool)
    (hid : id ≠ "") :
    (walletTransaction (traced Store.conn) (st, []) id a add).2 =
        Except.error (GoError.ValidationError "amount" "must be positive") ↔
      a.lt Float64.zero = true := by
  constructor
  · intro h
    by_contra hc
    have ha : a.lt Float64.zero = false := by simpa using hc
    rw [Store.transaction_outcome st id a add hid ha] at h
    cases hb : st.rows id with
    | none =>
      rw [hb] at h
      cases add <;> simp at h
    | some b =>
      rw [hb] at h
      cases add <;> cases hlt : b.lt a <;> simp [hlt] at h
  · intro ha
    rw [walletTransaction_negative (traced Store.conn) (st, []) id a add hid ha]

/-! ## Claims -/

/-- C1, as stated, fails: withdrawing the amount NaN from wallet "1" holding 100 succeeds,
and the balance returned and persisted is NaN, for which `>= 0` is false. -/
theorem withdraw_nan_balance :
    (Withdraw (traced Store.conn) (Store.empty.put "1" (Float64.ofInt 100), []) "1" Float64.NaN).2
      = Except.ok ⟨"1", Float64.NaN⟩ ∧
    (Withdraw (traced Store.conn) (Store.empty.put "1" (Float64.ofInt 100), []) "1"
      Float64.NaN).1.1.rows "1" = some Float64.NaN ∧
    Float64.zero.le Float64.NaN = false := by
  decide!

/-- C1, amended. For every table state and every `Withdraw(id, amount)` that succeeds with
wallet `w`: `w.Amount < 0` is false, `w` is the row persisted for `id`, and `w.Amount >= 0`
holds whenever neither `amount` nor the previous balance is NaN and they are not both
`+Inf` - whatever the previous balance was. -/
theorem withdraw_never_negative (st : Store) (id : String) (a : Float64) (w : Wallet)
    (h : (Withdraw (traced Store.conn) (st, []) id a).2 = Except.ok w) :
    w.Amount.lt Float64.zero = false ∧
    w.Id = id ∧
    (Withdraw (traced Store.conn) (st, []) id a).1.1.rows id = some w.Amount ∧
    ∀ b, st.rows id = some b → a.isNaN = false → b.isNaN = false →
      ¬ (a = Float64.Inf false ∧ b = Float64.Inf false) →
      Float64.zero.le w.Amount = true := by
  by_cases hid : id = ""
  · subst hid
    simp [Withdraw, walletTransaction] at h
  · cases ha : a.lt Float64.zero with
    | true =>
      rw [Withdraw, walletTransaction_negative (traced Store.conn) (st, []) id a false hid ha] at h
      simp at h
    | false =>
      rw [Withdraw, Store.transaction_outcome st id a false hid ha] at h ⊢
      cases hb : st.rows id with
      | none =>
        rw [hb] at h
        simp at h
      | some b =>
        rw [hb] at h
        cases hlt : b.lt a with
        | true => simp [hlt] at h
        | false =>
          simp [hlt] at h
          subst h
          refine ⟨Float64.sub_not_lt_zero a b ha hlt, rfl, ?_, ?_⟩
          · simp [hlt, Store.put]
          · intro b' hb' hna hnb hinf
            have e : b' = b := by simpa using hb'.symm
            subst e
            exact Float64.zero_le_sub a b' ha hlt hna hnb hinf

/-- Instance of C1 (amended): withdrawing 50 from wallet "1" holding 100 leaves 50, stored and
not negative. -/
theorem withdraw_never_negative_witness :
    (Float64.ofInt 50).lt Float64.zero = false ∧
    (Withdraw (traced Store.conn) (Store.empty.put "1" (Float64.ofInt 100), []) "1"
      (Float64.ofInt 50)).1.1.rows "1" = some (Float64.ofInt 50) :=
  ⟨(withdraw_never_negative (Store.empty.put "1" (Float64.ofInt 100)) "1" (Float64.ofInt 50)
      ⟨"1", Float64.ofInt 50⟩ (by decide!)).1,
   (withdraw_never_negative (Store.empty.put "1" (Float64.ofInt 100)) "1" (Float64.ofInt 50)
      ⟨"1", Float64.ofInt 50⟩ (by decide!)).2.2.1⟩

/-- C2. `Withdraw(id, a)` for a non-empty id stored with balance `b`, `a >= 0` and `a > b`,
returns no wallet and `ValidationError{Field: "amount", Message: "cannot be greater than current
wallet amount"}`; the only statement issued is the select and the table is unchanged, so
the stored balance is still `b`. -/
theorem withdraw_insufficient_funds (st : Store) (id : String) (a b : Float64) (hid : id ≠ "")
    (hb : st.rows id = some b) (ha : Float64.zero.le a = true) (hab : b.lt a = true) :
    Withdraw (traced Store.conn) (st, []) id a =
      ((st, [(selectWalletSql, [SqlValue.text id])]),
        Except.error
          (GoError.ValidationError "amount" "cannot be greater than current wallet amount")) := by
  have ha' : a.lt Float64.zero = false := Float64.lt_eq_false_of_le _ _ ha
  have hsel : ((traced Store.conn).QueryRow (st, []) selectWalletSql [SqlValue.text id]).2.ScanWallet
      = Except.ok (id, b) := by
    rw [traced_QueryRow, Store.select_found st id b hb]
  rw [Withdraw, walletTransaction_found (traced Store.conn) (st, []) id id a b false hid ha' hsel]
  simp [hab, traced_QueryRow, Store.select_found st id b hb]

/-- Instance of C2: withdrawing 100 from wallet "1" holding 50 (`Test_Withdraw_InsufficientFunds`). -/
theorem withdraw_insufficient_funds_witness :
    Withdraw (traced Store.conn) (Store.empty.put "1" (Float64.ofInt 50), []) "1" (Float64.ofInt 100) =
      ((Store.empty.put "1" (Float64.ofInt 50), [(selectWalletSql, [SqlValue.text "1"])]),
        Except.error
          (GoError.ValidationError "amount" "cannot be greater than current wallet amount")) :=
  withdraw_insufficient_funds (Store.empty.put "1" (Float64.ofInt 50)) "1" (Float64.ofInt 100)
    (Float64.ofInt 50) (by decide) (by decide!) (by decide!) (by decide!)

/-- C3. `Withdraw(id, a)` for a non-empty id whose row holds balance `b`, with
`0 <= a <= b` (`a = b` included): when the update statement succeeds and affects a row,
the call returns no error and the wallet `{Id: id, Amount: b - a}`; the statements issued
are the select and the update carrying the value `b - a` for `id`, and on the table the
row for `id` afterwards holds `b - a`. -/
theorem withdraw_success {σ : Type} (Conn : DbConnectionInterface σ) (s : σ) (id : String)
    (a b : Float64) (n : Nat) (hid : id ≠ "") (ha : Float64.zero.le a = true)
    (hab : a.le b = true)
    (hsel : (Conn.QueryRow s selectWalletSql [SqlValue.text id]).2.ScanWallet = Except.ok (id, b))
    (hupd : (Conn.Exec (Conn.QueryRow s selectWalletSql [SqlValue.text id]).1 updateWalletSql
      [SqlValue.float (b.sub a), SqlValue.text id]).2 = (n, none))
    (hn : n ≠ 0) :
    Withdraw (traced Conn) (s, []) id a =
      (((Conn.Exec (Conn.QueryRow s selectWalletSql [SqlValue.text id]).1 updateWalletSql
          [SqlValue.float (b.sub a), SqlValue.text id]).1,
        [(selectWalletSql, [SqlValue.text id]),
         (updateWalletSql, [SqlValue.float (b.sub a), SqlValue.text id])]),
        Except.ok ⟨id, b.sub a⟩) ∧
    ∀ st : Store, st.rows id = some b →
      (Withdraw (traced Store.conn) (st, []) id a).1.1.rows id = some (b.sub a) := by
  have ha' : a.lt Float64.zero = false := Float64.lt_eq_false_of_le _ _ ha
  have hab' : b.lt a = false := Float64.lt_eq_false_of_le _ _ hab
  constructor
  · rw [Withdraw, walletTransaction_update_ok (traced Conn) (s, []) id id a b false n hid ha'
      hsel (by simp [hab']) hupd hn]
    simp [traced_Exec, traced_QueryRow]
  · intro st hb
    rw [Withdraw, Store.transaction_outcome st id a false hid ha', hb]
    simp [hab', Store.put]

/-- Instance of C3 on the table: withdrawing 50 from wallet "1" holding 100
(`Test_Withdraw_Success`); `100 - 50` is `50`. -/
theorem withdraw_success_witness :
    Float64.sub (Float64.ofInt 100) (Float64.ofInt 50) = Float64.ofInt 50 ∧
    Withdraw (traced Store.conn) (Store.empty.put "1" (Float64.ofInt 100), []) "1" (Float64.ofInt 50) =
      (((Store.conn.Exec (Store.conn.QueryRow (Store.empty.put "1" (Float64.ofInt 100))
          selectWalletSql [SqlValue.text "1"]).1 updateWalletSql
          [SqlValue.float ((Float64.ofInt 100).sub (Float64.ofInt 50)), SqlValue.text "1"]).1,
        [(selectWalletSql, [SqlValue.text "1"]),
         (updateWalletSql,
           [SqlValue.float ((Float64.ofInt 100).sub (Float64.ofInt 50)), SqlValue.text "1"])]),
        Except.ok ⟨"1", (Float64.ofInt 100).sub (Float64.ofInt 50)⟩) :=
  ⟨by decide!,
    (withdraw_success Store.conn (Store.empty.put "1" (Float64.ofInt 100)) "1" (Float64.ofInt 50)
      (Float64.ofInt 100) 1 (by decide) (by decide!) (by decide!) (by decide!) (by decide!)
      (by decide)).1⟩

/-- C4. `Deposit(id, a)` for a non-empty id whose row holds balance `b`, with `a >= 0`:
when the update statement succeeds and affects a row, the call returns no error and the
wallet `{Id: id, Amount: b + a}`; the statements issued are the select and the update
carrying the value `b + a` for `id`, and on the table the row for `id` afterwards holds
`b + a`. -/
theorem deposit_existing {σ : Type} (Conn : DbConnectionInterface σ) (s : σ) (id : String)
    (a b : Float64) (n : Nat) (hid : id ≠ "") (ha : Float64.zero.le a = true)
    (hsel : (Conn.QueryRow s selectWalletSql [SqlValue.text id]).2.ScanWallet = Except.ok (id, b))
    (hupd : (Conn.Exec (Conn.QueryRow s selectWalletSql [SqlValue.text id]).1 updateWalletSql
      [SqlValue.float (b.add a), SqlValue.text id]).2 = (n, none))
    (hn : n ≠ 0) :
    Deposit (traced Conn) (s, []) id a =
      (((Conn.Exec (Conn.QueryRow s selectWalletSql [SqlValue.text id]).1 updateWalletSql
          [SqlValue.float (b.add a), SqlValue.text id]).1,
        [(selectWalletSql, [SqlValue.text id]),
         (updateWalletSql, [SqlValue.float (b.add a), SqlValue.text id])]),
        Except.ok ⟨id, b.add a⟩) ∧
    ∀ st : Store, st.rows id = some b →
      (Deposit (traced Store.conn) (st, []) id a).1.1.rows id = some (b.add a) := by
  have ha' : a.lt Float64.zero = false := Float64.lt_eq_false_of_le _ _ ha
  constructor
  · rw [Deposit, walletTransaction_update_ok (traced Conn) (s, []) id id a b true n hid ha'
      hsel (by simp) hupd hn]
    simp [traced_Exec, traced_QueryRow]
  · intro st hb
    rw [Deposit, Store.transaction_outcome st id a true hid ha', hb]
    simp [Store.put]

/-- Instance of C4 on the table: depositing 50 into wallet "1" holding 100
(`Test_Deposit_ExistingWallet`); `100 + 50` is `150`. -/
theorem deposit_existing_witness :
    Float64.add (Float64.ofInt 100) (Float64.ofInt 50) = Float64.ofInt 150 ∧
    Deposit (traced Store.conn) (Store.empty.put "1" (Float64.ofInt 100), []) "1" (Float64.ofInt 50) =
      (((Store.conn.Exec (Store.conn.QueryRow (Store.empty.put "1" (Float64.ofInt 100))
          selectWalletSql [SqlValue.text "1"]).1 updateWalletSql
          [SqlValue.float ((Float64.ofInt 100).add (Float64.ofInt 50)), SqlValue.text "1"]).1,
        [(selectWalletSql, [SqlValue.text "1"]),
         (updateWalletSql,
           [SqlValue.float ((Float64.ofInt 100).add (Float64.ofInt 50)), SqlValue.text "1"])]),
        Except.ok ⟨"1", (Float64.ofInt 100).add (Float64.ofInt 50)⟩) :=
  ⟨by decide!,
    (deposit_existing Store.conn (Store.empty.put "1" (Float64.ofInt 100)) "1" (Float64.ofInt 50)
      (Float64.ofInt 100) 1 (by decide) (by decide!) (by decide!) (by decide!) (by decide)).1⟩

/-- C5, as stated, fails twice. With balance -5, `Deposit("1", 3)` succeeds (balance -2)
and the following `Withdraw("1", 3)` is refused. With balance 1 and amount 2^53 both calls
succeed, but `1 + 2^53` rounds to `2^53` and the balance afterwards is 0, not 1. -/
theorem deposit_withdraw_not_round_trip :
    ((Deposit (traced Store.conn) (Store.empty.put "1" (Float64.ofInt (-5)), []) "1"
        (Float64.ofInt 3)).2 = Except.ok ⟨"1", Float64.ofInt (-2)⟩ ∧
     (Withdraw (traced Store.conn)
        ((Deposit (traced Store.conn) (Store.empty.put "1" (Float64.ofInt (-5)), []) "1"
          (Float64.ofInt 3)).1.1, []) "1" (Float64.ofInt 3)).2 =
        Except.error
          (GoError.ValidationError "amount" "cannot be greater than current wallet amount")) ∧
    ((Deposit (traced Store.conn) (Store.empty.put "1" (Float64.ofInt 1), []) "1"
        (Float64.ofInt 9007199254740992)).2 = Except.ok ⟨"1", Float64.ofInt 9007199254740992⟩ ∧
     (Withdraw (traced Store.conn)
        ((Deposit (traced Store.conn) (Store.empty.put "1" (Float64.ofInt 1), []) "1"
          (Float64.ofInt 9007199254740992)).1.1, []) "1" (Float64.ofInt 9007199254740992)).2 =
        Except.ok ⟨"1", Float64.ofInt 0⟩ ∧
     Float64.eq (Float64.ofInt 0) (Float64.ofInt 1) = false) := by
  decide!

/-- C5, amended. For a wallet stored under a non-empty id with balance `b >= 0` and an
amount `a >= 0` (on the table, no other writer): `Deposit(id, a)` succeeds with balance
`b + a`, the following `Withdraw(id, a)` succeeds, and the balance returned and stored
afterwards is the `float64` value `(b + a) - a`; it equals `b` whenever the sum `b + a` is
finite and exact. -/
theorem deposit_withdraw_round_trip (st : Store) (id : String) (a b : Float64) (hid : id ≠ "")
    (hb : st.rows id = some b) (ha : Float64.zero.le a = true) (hb0 : Float64.zero.le b = true) :
    (Deposit (traced Store.conn) (st, []) id a).2 = Except.ok ⟨id, b.add a⟩ ∧
    (Withdraw (traced Store.conn) ((Deposit (traced Store.conn) (st, []) id a).1.1, []) id a).2
      = Except.ok ⟨id, (b.add a).sub a⟩ ∧
    (Withdraw (traced Store.conn) ((Deposit (traced Store.conn) (st, []) id a).1.1, [])
      id a).1.1.rows id = some ((b.add a).sub a) ∧
    (Float64.exactSum b a = true → ((b.add a).sub a).eq b = true) := by
  have ha' : a.lt Float64.zero = false := Float64.lt_eq_false_of_le _ _ ha
  have hd : Deposit (traced Store.conn) (st, []) id a =
      ((st.put id (b.add a), [(selectWalletSql, [SqlValue.text id]),
        (updateWalletSql, [SqlValue.float (b.add a), SqlValue.text id])]),
        Except.ok ⟨id, b.add a⟩) := by
    rw [Deposit, Store.transaction_outcome st id a true hid ha', hb]
    simp
  have hrow : (st.put id (b.add a)).rows id = some (b.add a) := Store.put_rows_self _ _ _
  have hlt : (b.add a).lt a = false := Float64.add_not_lt a b ha hb0
  have hw : Withdraw (traced Store.conn) (st.put id (b.add a), []) id a =
      (((st.put id (b.add a)).put id ((b.add a).sub a),
        [(selectWalletSql, [SqlValue.text id]),
         (updateWalletSql, [SqlValue.float ((b.add a).sub a), SqlValue.text id])]),
        Except.ok ⟨id, (b.add a).sub a⟩) := by
    rw [Withdraw, Store.transaction_outcome (st.put id (b.add a)) id a false hid ha', hrow]
    simp [hlt]
  rw [hd]
  refine ⟨rfl, ?_, ?_, Float64.add_sub_eq a b⟩
  · show (Withdraw (traced Store.conn) (st.put id (b.add a), []) id a).2 = _
    rw [hw]
  · show (Withdraw (traced Store.conn) (st.put id (b.add a), []) id a).1.1.rows id = _
    rw [hw]
    exact Store.put_rows_self _ _ _

/-- Instance of C5 (amended): balance 100, amount 50; the sum is exact and the balance returns
to 100. -/
theorem deposit_withdraw_round_trip_witness :
    Float64.exactSum (Float64.ofInt 100) (Float64.ofInt 50) = true ∧
    (Withdraw (traced Store.conn)
      ((Deposit (traced Store.conn) (Store.empty.put "1" (Float64.ofInt 100), []) "1"
        (Float64.ofInt 50)).1.1, []) "1" (Float64.ofInt 50)).2 =
      Except.ok ⟨"1", ((Float64.ofInt 100).add (Float64.ofInt 50)).sub (Float64.ofInt 50)⟩ ∧
    (((Float64.ofInt 100).add (Float64.ofInt 50)).sub (Float64.ofInt 50)).eq (Float64.ofInt 100)
      = true :=
  ⟨by decide!,
   (deposit_withdraw_round_trip (Store.empty.put "1" (Float64.ofInt 100)) "1" (Float64.ofInt 50)
      (Float64.ofInt 100) (by decide) (by decide!) (by decide!) (by decide!)).2.1,
   (deposit_withdraw_round_trip (Store.empty.put "1" (Float64.ofInt 100)) "1" (Float64.ofInt 50)
      (Float64.ofInt 100) (by decide) (by decide!) (by decide!) (by decide!)).2.2.2 (by decide!)⟩

/-- C6. `Deposit(id, a)` for a non-empty id with no row (the select reports
`pgx.ErrNoRows`) and `a >= 0`: when the insert succeeds and affects a row, the call
returns no error and the wallet `{Id: id, Amount: a}`; the statements issued are the
select and the insert of `(id, a)`, and on the table the row for `id` afterwards holds
exactly `a`. -/
theorem deposit_creates_missing {σ : Type} (Conn : DbConnectionInterface σ) (s : σ)
    (id : String) (a : Float64) (n : Nat) (hid : id ≠ "") (ha : Float64.zero.le a = true)
    (hsel : (Conn.QueryRow s selectWalletSql [SqlValue.text id]).2.ScanWallet
      = Except.error GoError.ErrNoRows)
    (hins : (Conn.Exec (Conn.QueryRow s selectWalletSql [SqlValue.text id]).1 insertWalletSql
      [SqlValue.text id, SqlValue.float a]).2 = (n, none))
    (hn : n ≠ 0) :
    Deposit (traced Conn) (s, []) id a =
      (((Conn.Exec (Conn.QueryRow s selectWalletSql [SqlValue.text id]).1 insertWalletSql
          [SqlValue.text id, SqlValue.float a]).1,
        [(selectWalletSql, [SqlValue.text id]),
         (insertWalletSql, [SqlValue.text id, SqlValue.float a])]),
        Except.ok ⟨id, a⟩) ∧
    ∀ st : Store, st.rows id = none →
      (Deposit (traced Store.conn) (st, []) id a).1.1.rows id = some a := by
  have ha' : a.lt Float64.zero = false := Float64.lt_eq_false_of_le _ _ ha
  constructor
  · rw [Deposit, walletTransaction_insert_ok (traced Conn) (s, []) id a GoError.ErrNoRows n
      hid ha' hsel rfl hins hn]
    simp [traced_Exec, traced_QueryRow]
  · intro st hb
    rw [Deposit, Store.transaction_outcome st id a true hid ha', hb]
    simp [Store.put]

/-- Instance of C6 on the empty table: depositing 50 to the unknown id "7" creates the row. -/
theorem deposit_creates_missing_witness :
    Deposit (traced Store.conn) (Store.empty, []) "7" (Float64.ofInt 50) =
      (((Store.conn.Exec (Store.conn.QueryRow Store.empty selectWalletSql [SqlValue.text "7"]).1
          insertWalletSql [SqlValue.text "7", SqlValue.float (Float64.ofInt 50)]).1,
        [(selectWalletSql, [SqlValue.text "7"]),
         (insertWalletSql, [SqlValue.text "7", SqlValue.float (Float64.ofInt 50)])]),
        Except.ok ⟨"7", Float64.ofInt 50⟩) ∧
    (Deposit (traced Store.conn) (Store.empty, []) "7" (Float64.ofInt 50)).1.1.rows "7" =
      some (Float64.ofInt 50) :=
  ⟨(deposit_creates_missing Store.conn Store.empty "7" (Float64.ofInt 50) 1 (by decide)
      (by decide!) (by decide!) (by decide!) (by decide)).1,
   (deposit_creates_missing Store.conn Store.empty "7" (Float64.ofInt 50) 1 (by decide)
      (by decide!) (by decide!) (by decide!) (by decide)).2 Store.empty (by decide!)⟩

/-- C7. `Withdraw(id, a)` for a non-empty id absent from the table and `a >= 0` returns
no wallet and exactly `ErrWalletNotFound`; the only statement issued is the select (no
insert, no update) and the table is unchanged, so it still has no row for `id`. -/
theorem withdraw_unknown_id (st : Store) (id : String) (a : Float64) (hid : id ≠ "")
    (habs : st.rows id = none) (ha : Float64.zero.le a = true) :
    Withdraw (traced Store.conn) (st, []) id a =
      ((st, [(selectWalletSql, [SqlValue.text id])]), Except.error GoError.ErrWalletNotFound) := by
  have ha' : a.lt Float64.zero = false := Float64.lt_eq_false_of_le _ _ ha
  have hsel : ((traced Store.conn).QueryRow (st, []) selectWalletSql [SqlValue.text id]).2.ScanWallet
      = Except.error GoError.ErrNoRows := by
    rw [traced_QueryRow, Store.select_absent st id habs]; rfl
  rw [Withdraw, walletTransaction_notFound (traced Store.conn) (st, []) id a false
    GoError.ErrNoRows hid ha' hsel rfl]
  simp [traced_QueryRow, Store.select_absent st id habs]

/-- Instance of C7: withdrawing from the unknown id "ghost" on the empty table. -/
theorem withdraw_unknown_id_witness :
    Withdraw (traced Store.conn) (Store.empty, []) "ghost" (Float64.ofInt 50) =
      ((Store.empty, [(selectWalletSql, [SqlValue.text "ghost"])]),
        Except.error GoError.ErrWalletNotFound) :=
  withdraw_unknown_id Store.empty "ghost" (Float64.ofInt 50) (by decide) (by decide!) (by decide!)

/-- C8. `Deposit("", a)` for an amount of any sign: when the generating insert yields the
id `n`, the call returns the wallet `{Id: n, Amount: a}` without error; the only statement
issued is that insert, with argument `a` (no validation, no lookup, no update). -/
theorem deposit_empty_id_creates {σ : Type} (Conn : DbConnectionInterface σ) (s : σ)
    (a : Float64) (n : String)
    (hins : (Conn.QueryRow s insertAmountSql [SqlValue.float a]).2.ScanId = Except.ok n) :
    Deposit (traced Conn) (s, []) "" a =
      (((Conn.QueryRow s insertAmountSql [SqlValue.float a]).1,
        [(insertAmountSql, [SqlValue.float a])]), Except.ok ⟨n, a⟩) := by
  simp [Deposit, walletTransaction, traced_QueryRow, hins]

/-- Instance of C8 on the empty table with the negative amount -5: the wallet "w0" is created
with balance -5. -/
theorem deposit_empty_id_creates_witness :
    (Store.conn.QueryRow Store.empty insertAmountSql [SqlValue.float (Float64.ofInt (-5))]).2.ScanId
      = Except.ok "w0" ∧
    Float64.lt (Float64.ofInt (-5)) Float64.zero = true ∧
    Deposit (traced Store.conn) (Store.empty, []) "" (Float64.ofInt (-5)) =
      (((Store.conn.QueryRow Store.empty insertAmountSql [SqlValue.float (Float64.ofInt (-5))]).1,
        [(insertAmountSql, [SqlValue.float (Float64.ofInt (-5))])]),
        Except.ok ⟨"w0", Float64.ofInt (-5)⟩) :=
  ⟨by decide!, by decide!,
    deposit_empty_id_creates Store.conn Store.empty (Float64.ofInt (-5)) "w0" (by decide!)⟩

/-- C9. For a non-empty id, every table state (row present or absent) and both `Deposit`
and `Withdraw`: the call returns `ValidationError{Field: "amount", Message: "must be positive"}`
if and only if `amount < 0`; in that case it returns no wallet and hands no statement to
the connection (no read, no write, table unchanged). In particular `amount = 0` is
accepted. -/
theorem negative_amount_rejected (st : Store) (id : String) (a : Float64) (hid : id ≠ "") :
    ((Deposit (traced Store.conn) (st, []) id a).2 =
        Except.error (GoError.ValidationError "amount" "must be positive") ↔
      a.lt Float64.zero = true) ∧
    ((Withdraw (traced Store.conn) (st, []) id a).2 =
        Except.error (GoError.ValidationError "amount" "must be positive") ↔
      a.lt Float64.zero = true) ∧
    (a.lt Float64.zero = true →
      Deposit (traced Store.conn) (st, []) id a =
        ((st, []), Except.error (GoError.ValidationError "amount" "must be positive")) ∧
      Withdraw (traced Store.conn) (st, []) id a =
        ((st, []), Except.error (GoError.ValidationError "amount" "must be positive"))) ∧
    (Deposit (traced Store.conn) (st, []) id Float64.zero).2 ≠
        Except.error (GoError.ValidationError "amount" "must be positive") ∧
    (Withdraw (traced Store.conn) (st, []) id Float64.zero).2 ≠
        Except.error (GoError.ValidationError "amount" "must be positive") := by
  have hz : Float64.zero.lt Float64.zero = false := by decide!
  refine ⟨Store.must_be_positive_iff st id a true hid,
    Store.must_be_positive_iff st id a false hid, ?_, ?_, ?_⟩
  · intro ha
    exact ⟨walletTransaction_negative (traced Store.conn) (st, []) id a true hid ha,
      walletTransaction_negative (traced Store.conn) (st, []) id a false hid ha⟩
  · intro h
    have := (Store.must_be_positive_iff st id Float64.zero true hid).mp h
    rw [hz] at this
    exact Bool.noConfusion this
  · intro h
    have := (Store.must_be_positive_iff st id Float64.zero false hid).mp h
    rw [hz] at this
    exact Bool.noConfusion this

/-- Instance of C9: withdrawing -1 from wallet "1" is refused before any statement. -/
theorem negative_amount_rejected_witness :
    (Float64.ofInt (-1)).lt Float64.zero = true ∧
    Withdraw (traced Store.conn) (Store.empty.put "1" (Float64.ofInt 100), []) "1"
      (Float64.ofInt (-1)) =
      ((Store.empty.put "1" (Float64.ofInt 100), []),
        Except.error (GoError.ValidationError "amount" "must be positive")) :=
  ⟨by decide!,
   ((negative_amount_rejected (Store.empty.put "1" (Float64.ofInt 100)) "1" (Float64.ofInt (-1))
      (by decide)).2.2.1 (by decide!)).2⟩

/-- C10. `Withdraw("", amount)` fails with `ValidationError{Field: "id", Message: "cannot be
empty"}` for every amount (negative and NaN included) on every connection and state,
returns no wallet and hands no statement to the connection: the id check comes before
the amount check. -/
theorem withdraw_empty_id {σ : Type} (Conn : DbConnectionInterface σ) (s : σ) (amount : Float64) :
    Withdraw (traced Conn) (s, []) "" amount =
      ((s, []), Except.error (GoError.ValidationError "id" "cannot be empty")) := by
  simp [Withdraw, walletTransaction]

/-! ## Claims on `GetWalletById`, `execQuery` and the controller -/

theorem Store.select_state (st : Store) (args : List SqlValue) :
    (Store.conn.QueryRow st selectWalletSql args).1 = st := by
  simp only [Store.conn, Store.queryRow, if_true]
  split
  · split <;> rfl
  · rfl

theorem GetWalletById_otherError {σ : Type} (Conn : DbConnectionInterface σ) (s : σ)
    (id : String) (e : GoError) (hid : id ≠ "")
    (h : (Conn.QueryRow s selectWalletSql [SqlValue.text id]).2.ScanWallet = Except.error e)
    (he : errorsIsErrNoRows e = false) :
    GetWalletById Conn s id =
      ((Conn.QueryRow s selectWalletSql [SqlValue.text id]).1, Except.error e) := by
  simp [GetWalletById, hid, h, he]

theorem errorsIsErrNoRows_iff_chain (e : GoError) :
    errorsIsErrNoRows e = true ↔ GoError.ErrNoRows ∈ e.chain := by
  induction e with
  | ErrWalletNotFound => simp [errorsIsErrNoRows, GoError.chain]
  | ValidationError f m => simp [errorsIsErrNoRows, GoError.chain]
  | ErrNoRows => simp [errorsIsErrNoRows, GoError.chain]
  | New text => simp [errorsIsErrNoRows, GoError.chain]
  | Wrap text inner ih => simp [errorsIsErrNoRows, GoError.chain, ih]

/-- C11. `GetWalletById` by cases, on every connection, with the statements issued: for
`id = ""` a `ValidationError{Field: "id", Message: "cannot be empty"}` and no query; for a
non-empty id, one select, after which a scan reporting `pgx.ErrNoRows` (itself or wrapped)
gives exactly `ErrWalletNotFound`, a scanned row `(id, b)` gives the wallet
`{Id: id, Amount: b}` without error, and any other scan error (one whose chain does not
hold `pgx.ErrNoRows`, such as every `errors.New` error) is returned unchanged. On the table
the cases are decided by the row for `id`, and in every case the table is left unchanged. -/
theorem getWalletById_cases {σ : Type} (Conn : DbConnectionInterface σ) (s : σ) (id : String) :
    (id = "" → GetWalletById (traced Conn) (s, []) id =
      ((s, []), Except.error (GoError.ValidationError "id" "cannot be empty"))) ∧
    (id ≠ "" → ∀ e,
      (Conn.QueryRow s selectWalletSql [SqlValue.text id]).2.ScanWallet = Except.error e →
      GoError.ErrNoRows ∈ e.chain →
      GetWalletById (traced Conn) (s, []) id =
        (((Conn.QueryRow s selectWalletSql [SqlValue.text id]).1,
          [(selectWalletSql, [SqlValue.text id])]), Except.error GoError.ErrWalletNotFound)) ∧
    (id ≠ "" → ∀ b,
      (Conn.QueryRow s selectWalletSql [SqlValue.text id]).2.ScanWallet = Except.ok (id, b) →
      GetWalletById (traced Conn) (s, []) id =
        (((Conn.QueryRow s selectWalletSql [SqlValue.text id]).1,
          [(selectWalletSql, [SqlValue.text id])]), Except.ok ⟨id, b⟩)) ∧
    (id ≠ "" → ∀ e,
      (Conn.QueryRow s selectWalletSql [SqlValue.text id]).2.ScanWallet = Except.error e →
      GoError.ErrNoRows ∉ e.chain →
      GetWalletById (traced Conn) (s, []) id =
        (((Conn.QueryRow s selectWalletSql [SqlValue.text id]).1,
          [(selectWalletSql, [SqlValue.text id])]), Except.error e)) ∧
    (id ≠ "" → ∀ text,
      (Conn.QueryRow s selectWalletSql [SqlValue.text id]).2.ScanWallet =
        Except.error (GoError.New text) →
      GetWalletById (traced Conn) (s, []) id =
        (((Conn.QueryRow s selectWalletSql [SqlValue.text id]).1,
          [(selectWalletSql, [SqlValue.text id])]), Except.error (GoError.New text))) ∧
    (∀ st : Store,
      (GetWalletById (traced Store.conn) (st, []) id).1.1 = st ∧
      (id ≠ "" → st.rows id = none →
        (GetWalletById (traced Store.conn) (st, []) id).2 =
          Except.error GoError.ErrWalletNotFound) ∧
      (id ≠ "" → ∀ b, st.rows id = some b →
        (GetWalletById (traced Store.conn) (st, []) id).2 = Except.ok ⟨id, b⟩)) := by
  refine ⟨?_, ?_, ?_, ?_, ?_, ?_⟩
  · intro h
    simp [GetWalletById, h]
  · intro hid e h he
    rw [GetWalletById_noRows (traced Conn) (s, []) id e hid h
      ((errorsIsErrNoRows_iff_chain e).mpr he)]
    simp [traced_QueryRow]
  · intro hid b h
    rw [GetWalletById_found (traced Conn) (s, []) id id b hid h]
    simp [traced_QueryRow]
  · intro hid e h he
    have he' : errorsIsErrNoRows e = false := by
      cases hc : errorsIsErrNoRows e with
      | false => rfl
      | true => exact absurd ((errorsIsErrNoRows_iff_chain e).mp hc) he
    rw [GetWalletById_otherError (traced Conn) (s, []) id e hid h he']
    simp [traced_QueryRow]
  · intro hid text h
    rw [GetWalletById_otherError (traced Conn) (s, []) id (GoError.New text) hid h rfl]
    simp [traced_QueryRow]
  · intro st
    refine ⟨?_, ?_, ?_⟩
    · by_cases hid : id = ""
      · simp [GetWalletById, hid]
      · have hst := Store.select_state st [SqlValue.text id]
        simp only [GetWalletById, hid, if_false, traced_QueryRow]
        split
        · split <;> exact hst
        · exact hst
    · intro hid hnone
      have hsel : ((traced Store.conn).QueryRow (st, []) selectWalletSql
          [SqlValue.text id]).2.ScanWallet = Except.error GoError.ErrNoRows := by
        rw [traced_QueryRow, Store.select_absent st id hnone]; rfl
      rw [GetWalletById_noRows (traced Store.conn) (st, []) id GoError.ErrNoRows hid hsel rfl]
    · intro hid b hb
      have hsel : ((traced Store.conn).QueryRow (st, []) selectWalletSql
          [SqlValue.text id]).2.ScanWallet = Except.ok (id, b) := by
        rw [traced_QueryRow, Store.select_found st id b hb]
      rw [GetWalletById_found (traced Store.conn) (st, []) id id b hid hsel]

/-- Instance of C11, after the three repository tests: on the table wallet "1" holding 100
is returned (`Test_GetWalletById_Success`), the unknown id "not-found" gives
`ErrWalletNotFound` (`Test_GetWalletById_NotFound`), and a scan failing with "some DB
error" gives that error back (`Test_GetWalletById_DBError`). -/
theorem getWalletById_cases_witness :
    (GetWalletById (traced Store.conn) (Store.empty.put "1" (Float64.ofInt 100), []) "1").2 =
      Except.ok ⟨"1", Float64.ofInt 100⟩ ∧
    (GetWalletById (traced Store.conn) (Store.empty, []) "not-found").2 =
      Except.error GoError.ErrWalletNotFound ∧
    GetWalletById (traced (Store.failingScanConn (GoError.New "some DB error")))
        (Store.empty, []) "broken" =
      ((((Store.failingScanConn (GoError.New "some DB error")).QueryRow Store.empty
          selectWalletSql [SqlValue.text "broken"]).1,
        [(selectWalletSql, [SqlValue.text "broken"])]),
        Except.error (GoError.New "some DB error")) :=
  ⟨((getWalletById_cases Store.conn Store.empty "1").2.2.2.2.2
      (Store.empty.put "1" (Float64.ofInt 100))).2.2 (by decide) (Float64.ofInt 100)
      (by decide!),
   ((getWalletById_cases Store.conn Store.empty "not-found").2.2.2.2.2 Store.empty).2.1
      (by decide) (by decide),
   (getWalletById_cases (Store.failingScanConn (GoError.New "some DB error")) Store.empty
      "broken").2.2.2.1 (by decide) (GoError.New "some DB error") (by decide) (by decide)⟩

section ExecQueryLemmas

variable {σ : Type} (Conn : DbConnectionInterface σ)

theorem execQuery_error (s : σ) (query : String) (noRows : GoError) (args : List SqlValue)
    (e : GoError) (h : (Conn.Exec s query args).2.2 = some e) :
    execQuery Conn s query noRows args = ((Conn.Exec s query args).1, some e) := by
  simp [execQuery, h]

theorem execQuery_noRows (s : σ) (query : String) (noRows : GoError) (args : List SqlValue)
    (h : (Conn.Exec s query args).2.2 = none) (h0 : (Conn.Exec s query args).2.1 = 0) :
    execQuery Conn s query noRows args = ((Conn.Exec s query args).1, some noRows) := by
  simp [execQuery, h, h0]

theorem execQuery_eq_none_iff (s : σ) (query : String) (noRows : GoError)
    (args : List SqlValue) :
    (execQuery Conn s query noRows args).2 = none ↔
      (Conn.Exec s query args).2.2 = none ∧ (Conn.Exec s query args).2.1 ≠ 0 := by
  cases h : (Conn.Exec s query args).2.2 with
  | some e =>
    rw [execQuery_error Conn s query noRows args e h]
    simp
  | none =>
    by_cases h0 : (Conn.Exec s query args).2.1 = 0
    · rw [execQuery_noRows Conn s query noRows args h h0]
      simp [h0]
    · simp [execQuery, h, h0]

end ExecQueryLemmas

/-- C12. `execQuery` returns no error exactly when `Exec` reports no error and at least one
affected row; an error `e` of `Exec` is returned as `e`; no error with zero affected rows
gives the supplied `noRowsError`. Consequently, on a connection whose `Exec` errors come
from the driver, a `Deposit` or `Withdraw` (`walletTransaction` with `add` true or false)
whose write - the update of the row read, or the insert of a missing row - reports an
error or zero affected rows returns no wallet and a non-nil error that is neither a
`ValidationError` nor `ErrWalletNotFound`: the error of `Exec` itself, or for zero affected
rows the `fmt.Errorf` error naming the id. -/
theorem write_failure_reported {σ : Type} (Conn : DbConnectionInterface σ)
    (hdriver : ExecErrorsFromDriver Conn) (s : σ) (id : String) (a : Float64) (add : Bool)
    (hid : id ≠ "") (ha : a.lt Float64.zero = false) :
    (∀ (s1 : σ) (query : String) (noRowsError : GoError) (args : List SqlValue),
      ((execQuery Conn s1 query noRowsError args).2 = none ↔
        (Conn.Exec s1 query args).2.2 = none ∧ (Conn.Exec s1 query args).2.1 ≠ 0) ∧
      (∀ e, (Conn.Exec s1 query args).2.2 = some e →
        (execQuery Conn s1 query noRowsError args).2 = some e) ∧
      ((Conn.Exec s1 query args).2.2 = none → (Conn.Exec s1 query args).2.1 = 0 →
        (execQuery Conn s1 query noRowsError args).2 = some noRowsError)) ∧
    (∀ wid b,
      (Conn.QueryRow s selectWalletSql [SqlValue.text id]).2.ScanWallet = Except.ok (wid, b) →
      (!add && b.lt a) = false →
      ((Conn.Exec (Conn.QueryRow s selectWalletSql [SqlValue.text id]).1 updateWalletSql
          [SqlValue.float (if add then b.add a else b.sub a), SqlValue.text id]).2.2 ≠ none ∨
       (Conn.Exec (Conn.QueryRow s selectWalletSql [SqlValue.text id]).1 updateWalletSql
          [SqlValue.float (if add then b.add a else b.sub a), SqlValue.text id]).2.1 = 0) →
      ∃ e, (walletTransaction Conn s id a add).2 = Except.error e ∧
        e ≠ GoError.ErrWalletNotFound ∧
        (∀ Field Message, e ≠ GoError.ValidationError Field Message) ∧
        ((Conn.Exec (Conn.QueryRow s selectWalletSql [SqlValue.text id]).1 updateWalletSql
            [SqlValue.float (if add then b.add a else b.sub a), SqlValue.text id]).2.2 = some e ∨
         ((Conn.Exec (Conn.QueryRow s selectWalletSql [SqlValue.text id]).1 updateWalletSql
            [SqlValue.float (if add then b.add a else b.sub a), SqlValue.text id]).2.2 = none ∧
          e = GoError.New ("failed to update wallet with id " ++ id)))) ∧
    ((Conn.QueryRow s selectWalletSql [SqlValue.text id]).2.ScanWallet =
        Except.error GoError.ErrNoRows →
      ((Conn.Exec (Conn.QueryRow s selectWalletSql [SqlValue.text id]).1 insertWalletSql
          [SqlValue.text id, SqlValue.float a]).2.2 ≠ none ∨
       (Conn.Exec (Conn.QueryRow s selectWalletSql [SqlValue.text id]).1 insertWalletSql
          [SqlValue.text id, SqlValue.float a]).2.1 = 0) →
      ∃ e, (Deposit Conn s id a).2 = Except.error e ∧
        e ≠ GoError.ErrWalletNotFound ∧
        (∀ Field Message, e ≠ GoError.ValidationError Field Message) ∧
        ((Conn.Exec (Conn.QueryRow s selectWalletSql [SqlValue.text id]).1 insertWalletSql
            [SqlValue.text id, SqlValue.float a]).2.2 = some e ∨
         ((Conn.Exec (Conn.QueryRow s selectWalletSql [SqlValue.text id]).1 insertWalletSql
            [SqlValue.text id, SqlValue.float a]).2.2 = none ∧
          e = GoError.New ("failed to create new wallet with id " ++ id)))) := by
  refine ⟨?_, ?_, ?_⟩
  · intro s1 query noRowsError args
    refine ⟨execQuery_eq_none_iff Conn s1 query noRowsError args, ?_, ?_⟩
    · intro e he
      rw [execQuery_error Conn s1 query noRowsError args e he]
    · intro h h0
      rw [execQuery_noRows Conn s1 query noRowsError args h h0]
  · intro wid b hsel hguard hfail
    cases hx : (Conn.Exec (Conn.QueryRow s selectWalletSql [SqlValue.text id]).1 updateWalletSql
        [SqlValue.float (if add then b.add a else b.sub a), SqlValue.text id]).2.2 with
    | some e =>
      refine ⟨e, ?_, (hdriver _ _ _ e hx).1, (hdriver _ _ _ e hx).2, Or.inl rfl⟩
      rw [walletTransaction_found Conn s id wid a b add hid ha hsel, hguard,
        execQuery_error Conn _ _ _ _ e hx]
      simp
    | none =>
      have h0 : (Conn.Exec (Conn.QueryRow s selectWalletSql [SqlValue.text id]).1 updateWalletSql
          [SqlValue.float (if add then b.add a else b.sub a), SqlValue.text id]).2.1 = 0 := by
        rcases hfail with h | h
        · exact absurd hx h
        · exact h
      refine ⟨GoError.New ("failed to update wallet with id " ++ id), ?_,
        fun h => GoError.noConfusion h, fun f m h => GoError.noConfusion h, Or.inr ⟨rfl, rfl⟩⟩
      rw [walletTransaction_found Conn s id wid a b add hid ha hsel, hguard,
        execQuery_noRows Conn _ _ _ _ hx h0]
      simp
  · intro hsel hfail
    cases hx : (Conn.Exec (Conn.QueryRow s selectWalletSql [SqlValue.text id]).1 insertWalletSql
        [SqlValue.text id, SqlValue.float a]).2.2 with
    | some e =>
      refine ⟨e, ?_, (hdriver _ _ _ e hx).1, (hdriver _ _ _ e hx).2, Or.inl rfl⟩
      rw [Deposit, walletTransaction_notFound Conn s id a true GoError.ErrNoRows hid ha hsel rfl,
        execQuery_error Conn _ _ _ _ e hx]
      simp
    | none =>
      have h0 : (Conn.Exec (Conn.QueryRow s selectWalletSql [SqlValue.text id]).1 insertWalletSql
          [SqlValue.text id, SqlValue.float a]).2.1 = 0 := by
        rcases hfail with h | h
        · exact absurd hx h
        · exact h
      refine ⟨GoError.New ("failed to create new wallet with id " ++ id), ?_,
        fun h => GoError.noConfusion h, fun f m h => GoError.noConfusion h, Or.inr ⟨rfl, rfl⟩⟩
      rw [Deposit, walletTransaction_notFound Conn s id a true GoError.ErrNoRows hid ha hsel rfl,
        execQuery_noRows Conn _ _ _ _ hx h0]
      simp

theorem Store.failingExecConn_fromDriver (text : String) :
    ExecErrorsFromDriver (Store.failingExecConn (GoError.New text)) := by
  intro s query args e h
  have he : e = GoError.New text := by
    simp [Store.failingExecConn] at h
    exact h.symm
  subst he
  exact ⟨fun h => GoError.noConfusion h, fun f m h => GoError.noConfusion h⟩

theorem Store.lostUpdateConn_fromDriver : ExecErrorsFromDriver Store.lostUpdateConn := by
  intro s query args e h
  simp [Store.lostUpdateConn] at h

/-- Instance of C12, `Test_Withdraw_UpdateError`: when the update of wallet "1" reports the
error "update failed", `Withdraw("1", 50)` returns an error, which is neither
`ErrWalletNotFound` nor a `ValidationError`; so it does when the update affects no row. -/
theorem write_failure_reported_witness :
    (∃ e, (walletTransaction (Store.failingExecConn (GoError.New "update failed"))
        (Store.empty.put "1" (Float64.ofInt 100)) "1" (Float64.ofInt 50) false).2 =
          Except.error e ∧
        e ≠ GoError.ErrWalletNotFound ∧
        (∀ Field Message, e ≠ GoError.ValidationError Field Message) ∧
        (((Store.failingExecConn (GoError.New "update failed")).Exec
            ((Store.failingExecConn (GoError.New "update failed")).QueryRow
              (Store.empty.put "1" (Float64.ofInt 100)) selectWalletSql
              [SqlValue.text "1"]).1 updateWalletSql
            [SqlValue.float (if false = true then (Float64.ofInt 100).add (Float64.ofInt 50)
              else (Float64.ofInt 100).sub (Float64.ofInt 50)), SqlValue.text "1"]).2.2 = some e ∨
         (((Store.failingExecConn (GoError.New "update failed")).Exec
            ((Store.failingExecConn (GoError.New "update failed")).QueryRow
              (Store.empty.put "1" (Float64.ofInt 100)) selectWalletSql
              [SqlValue.text "1"]).1 updateWalletSql
            [SqlValue.float (if false = true then (Float64.ofInt 100).add (Float64.ofInt 50)
              else (Float64.ofInt 100).sub (Float64.ofInt 50)), SqlValue.text "1"]).2.2 = none ∧
          e = GoError.New ("failed to update wallet with id " ++ "1")))) ∧
    (Withdraw (Store.failingExecConn (GoError.New "update failed"))
      (Store.empty.put "1" (Float64.ofInt 100)) "1" (Float64.ofInt 50)).2 =
      Except.error (GoError.New "update failed") ∧
    (Withdraw Store.lostUpdateConn (Store.empty.put "1" (Float64.ofInt 100)) "1"
      (Float64.ofInt 50)).2 = Except.error (GoError.New "failed to update wallet with id 1") :=
  ⟨(write_failure_reported (Store.failingExecConn (GoError.New "update failed"))
      (Store.failingExecConn_fromDriver "update failed")
      (Store.empty.put "1" (Float64.ofInt 100)) "1" (Float64.ofInt 50) false (by decide)
      (by decide!)).2.1 "1" (Float64.ofInt 100) (by decide!) (by decide!)
      (Or.inl (by decide!)),
   by decide!, by decide!⟩

/-- C13, as stated, fails on the 200 body: for the wallet `{"1", +Inf}` and a nil error the
status is 200 and the body is `{}` (`ToJson` falls back when `json.Marshal` rejects the
amount), an object without the fields `id` and `amount`. -/
theorem writeResponse_infinite_amount :
    writeResponse (some ⟨"1", Float64.Inf false⟩) none = ⟨200, Body.json (Json.object [])⟩ := by
  decide

/-- C13, amended. `writeResponse` maps every `(wallet, err)` pair to exactly one status:
200 iff `err` is nil, with body `wallet.ToJson()`, which is the object with the fields `id`
and `amount` for a wallet with a finite amount, `{}` for a NaN or infinite amount and `null`
for a nil wallet; 404 with message "Wallet not found" iff `err` is `ErrWalletNotFound`; 400
with message "Validation error on field '<Field>': <Message>" iff `err` is a
`*ValidationError`; 500 with message `err.Error()` for every other non-nil error. -/
theorem writeResponse_cases (wallet : Option Wallet) (err : Option GoError) :
    (err = none → writeResponse wallet err = ⟨200, Body.json (Wallet.ToJson wallet)⟩) ∧
    (err = some GoError.ErrWalletNotFound →
      writeResponse wallet err = writeErrorResponse 404 "Wallet not found") ∧
    (∀ Field Message, err = some (GoError.ValidationError Field Message) →
      writeResponse wallet err =
        writeErrorResponse 400 ("Validation error on field '" ++ Field ++ "': " ++ Message)) ∧
    (∀ e, err = some e → e ≠ GoError.ErrWalletNotFound →
      (∀ Field Message, e ≠ GoError.ValidationError Field Message) →
      writeResponse wallet err = writeErrorResponse 500 e.Error) ∧
    ((writeResponse wallet err).statusCode = 200 ↔ err = none) ∧
    ((writeResponse wallet err).statusCode = 404 ↔ err = some GoError.ErrWalletNotFound) ∧
    ((writeResponse wallet err).statusCode = 400 ↔
      ∃ Field Message, err = some (GoError.ValidationError Field Message)) ∧
    ((writeResponse wallet err).statusCode = 500 ↔
      ∃ e, err = some e ∧ e ≠ GoError.ErrWalletNotFound ∧
        ∀ Field Message, e ≠ GoError.ValidationError Field Message) ∧
    (∀ w, w.Amount.isFinite = true →
      Wallet.ToJson (some w) =
        Json.object [("id", JsonMember.string w.Id), ("amount", JsonMember.number w.Amount)]) ∧
    (∀ w, w.Amount.isFinite = false → Wallet.ToJson (some w) = Json.object []) ∧
    Wallet.ToJson none = Json.null := by
  refine ⟨?_, ?_, ?_, ?_, ?_, ?_, ?_, ?_, ?_, ?_, ?_⟩
  · intro h; subst h; rfl
  · intro h; subst h; rfl
  · intro Field Message h; subst h; rfl
  · intro e h h1 h2
    subst h
    cases e with
    | ErrWalletNotFound => exact absurd rfl h1
    | ValidationError f m => exact absurd rfl (h2 f m)
    | ErrNoRows => rfl
    | New text => rfl
    | Wrap text inner => rfl
  · cases err with
    | none => simp [writeResponse]
    | some e => cases e <;> simp [writeResponse, writeErrorResponse]
  · cases err with
    | none => simp [writeResponse]
    | some e => cases e <;> simp [writeResponse, writeErrorResponse]
  · cases err with
    | none => simp [writeResponse]
    | some e => cases e <;> simp [writeResponse, writeErrorResponse]
  · cases err with
    | none => simp [writeResponse]
    | some e => cases e <;> simp [writeResponse, writeErrorResponse]
  · intro w h
    simp [Wallet.ToJson, jsonMarshal, h]
  · intro w h
    simp [Wallet.ToJson, jsonMarshal, h]
  · rfl

/-! ## Case folding -/

theorem toNat_ofNat_upper (k : Nat) (h1 : 65 ≤ k) (h2 : k ≤ 90) : (Char.ofNat k).toNat = k := by
  interval_cases k <;> rfl

theorem foldRune_of_small (c : Char) (h : c.toNat ≤ 122) : foldRune c = c.toLower := by
  have h1 : c ≠ Char.ofNat 0x17F := by
    intro e
    have : c.toNat = 383 := by rw [e]; rfl
    omega
  have h2 : c ≠ Char.ofNat 0x212A := by
    intro e
    have : c.toNat = 8490 := by rw [e]; rfl
    omega
  simp [foldRune, h1, h2]

/-- Folding does not see the ASCII case of a rune. -/
theorem foldRune_toUpper (c : Char) : foldRune c.toUpper = foldRune c := by
  by_cases h : c.toNat ≥ 97 ∧ c.toNat ≤ 122
  · have hu : c.toUpper = Char.ofNat (c.toNat - 32) := by
      simp [Char.toUpper, h]
    have hk := toNat_ofNat_upper (c.toNat - 32) (by omega) (by omega)
    rw [foldRune_of_small c (by omega), hu, foldRune_of_small _ (by omega)]
    have hl : c.toLower = c := by
      have : ¬ (c.toNat ≥ 65 ∧ c.toNat ≤ 90) := by omega
      simp [Char.toLower, this]
    rw [hl]
    have : (Char.ofNat (c.toNat - 32)).toLower = Char.ofNat ((Char.ofNat (c.toNat - 32)).toNat + 32) := by
      have h3 : (Char.ofNat (c.toNat - 32)).toNat ≥ 65 ∧ (Char.ofNat (c.toNat - 32)).toNat ≤ 90 := by
        omega
      simp only [Char.toLower, h3, and_self, if_true]
    rw [this, hk]
    have h4 : c.toNat - 32 + 32 = c.toNat := by omega
    rw [h4, Char.ofNat_toNat]
  · have hu : c.toUpper = c := by
      simp [Char.toUpper, h]
    rw [hu]

theorem equalFoldRunes_iff (l1 l2 : List Char) :
    equalFoldRunes l1 l2 = true ↔ l1.map foldRune = l2.map foldRune := by
  induction l1 generalizing l2 with
  | nil => cases l2 <;> simp [equalFoldRunes]
  | cons a as ih =>
    cases l2 with
    | nil => simp [equalFoldRunes]
    | cons b bs => simp [equalFoldRunes, ih]

theorem equalFoldRunes_of_upper (l1 l2 : List Char)
    (h : l1.map Char.toUpper = l2.map Char.toUpper) : equalFoldRunes l1 l2 = true := by
  rw [equalFoldRunes_iff]
  have e : ∀ l : List Char, (l.map Char.toUpper).map foldRune = l.map foldRune := by
    intro l
    simp [List.map_map, Function.comp, foldRune_toUpper]
  rw [← e l1, ← e l2, h]

theorem caseFold_eq_foldRune (c : Char) : caseFold c = foldRune c := by
  have hc : Char.ofNat c.toNat = c := Char.ofNat_toNat c
  by_cases hu : 65 ≤ c.toNat ∧ c.toNat ≤ 90
  · rw [foldRune_of_small c (by omega)]
    simp [caseFold, Char.toLower, hu]
  · have hl : c.toLower = c := by
      simp only [Char.toLower]
      rw [if_neg]
      simpa using hu
    by_cases h1 : c.toNat = 0x17F
    · have e : c = Char.ofNat 0x17F := by rw [← hc, h1]
      subst e
      decide
    · by_cases h2 : c.toNat = 0x212A
      · have e : c = Char.ofNat 0x212A := by rw [← hc, h2]
        subst e
        decide
      · have n1 : c ≠ Char.ofNat 0x17F := by
          intro e
          apply h1
          rw [e]
          rfl
        have n2 : c ≠ Char.ofNat 0x212A := by
          intro e
          apply h2
          rw [e]
          rfl
        simp [caseFold, foldRune, hu, h1, h2, n1, n2, hl]

/-- The `EqualFold` of the source decides equality ignoring letter case. -/
theorem EqualFold_eq_equalIgnoringCase (s t : String) :
    EqualFold s t = equalIgnoringCase s t := by
  have e : ∀ l : List Char, l.map caseFold = l.map foldRune := by
    intro l
    exact List.map_congr_left (fun c _ => caseFold_eq_foldRune c)
  cases h : equalIgnoringCase s t with
  | true =>
    unfold equalIgnoringCase at h
    rw [EqualFold, equalFoldRunes_iff, ← e, ← e]
    simpa using h
  | false =>
    cases h2 : EqualFold s t with
    | false => rfl
    | true =>
      rw [EqualFold, equalFoldRunes_iff, ← e, ← e] at h2
      unfold equalIgnoringCase at h
      rw [h2, beq_self_eq_true] at h
      exact h

/-- C14. For a decoded request whose `operationType` is not equal, ignoring letter case, to
"DEPOSIT" nor to "WITHDRAW", `UpdateWallet` answers with status 400 and the body
`{"error": "Invalid operation type"}`, and the repository receives no call (no
`GetWalletById`, `Deposit` or `Withdraw`), whatever the repository is. -/
theorem updateWallet_invalid_operation {ρ : Type} (repo : WalletsRepositoryInterface ρ) (s : ρ)
    (requestData : RequestData)
    (hd : equalIgnoringCase requestData.OperationType "DEPOSIT" = false)
    (hw : equalIgnoringCase requestData.OperationType "WITHDRAW" = false) :
    UpdateWallet (tracedRepo repo) (s, []) (some requestData) =
      ((s, []), ⟨400, Body.text "\x7b\"error\": \"Invalid operation type\"\x7d"⟩) := by
  rw [← EqualFold_eq_equalIgnoringCase] at hd hw
  simp [UpdateWallet, hd, hw, writeErrorResponse]

/-- Instance of C14: the operation types "TRANSFER" (`Test_UpdateWallet_UnsupportedOperation`)
and "" on the repository over the table. -/
theorem updateWallet_invalid_operation_witness :
    UpdateWallet (tracedRepo (WalletsRepository Store.conn)) (Store.empty, [])
        (some ⟨"1", "TRANSFER", Float64.ofInt 100⟩) =
      ((Store.empty, []), ⟨400, Body.text "\x7b\"error\": \"Invalid operation type\"\x7d"⟩) ∧
    UpdateWallet (tracedRepo (WalletsRepository Store.conn)) (Store.empty, [])
        (some ⟨"1", "", Float64.ofInt 100⟩) =
      ((Store.empty, []), ⟨400, Body.text "\x7b\"error\": \"Invalid operation type\"\x7d"⟩) :=
  ⟨updateWallet_invalid_operation (WalletsRepository Store.conn) Store.empty
      ⟨"1", "TRANSFER", Float64.ofInt 100⟩ (by decide) (by decide),
   updateWallet_invalid_operation (WalletsRepository Store.conn) Store.empty
      ⟨"1", "", Float64.ofInt 100⟩ (by decide) (by decide)⟩

theorem EqualFold_of_isCaseVariant (s t : String) (h : isCaseVariant s t = true) :
    EqualFold s t = true := by
  unfold isCaseVariant at h
  exact equalFoldRunes_of_upper _ _ (by simpa using h)

theorem EqualFold_length (s t : String) (h : EqualFold s t = true) :
    s.toList.length = t.toList.length := by
  unfold EqualFold at h
  rw [equalFoldRunes_iff] at h
  have := congrArg List.length h
  simpa using this

theorem not_EqualFold_deposit_of_withdraw (s : String) (h : isCaseVariant s "WITHDRAW" = true) :
    EqualFold s "DEPOSIT" = false := by
  cases hd : EqualFold s "DEPOSIT" with
  | false => rfl
  | true =>
    have h1 := EqualFold_length s "DEPOSIT" hd
    have h2 := EqualFold_length s "WITHDRAW" (EqualFold_of_isCaseVariant s "WITHDRAW" h)
    rw [h1] at h2
    exact absurd h2 (by decide)

/-- C15. For a decoded request `(walletId, operationType, amount)`: when `operationType` is
an upper/lower-case variant of "DEPOSIT", `UpdateWallet` calls `Deposit(walletId, amount)`
once and nothing else on the repository, and answers `writeResponse` of that call's
result; when it is a variant of "WITHDRAW", it calls `Withdraw(walletId, amount)` once and
nothing else, and answers `writeResponse` of that result. On the repository over the table,
the request `("1", "deposit", 50)` against wallet "1" with balance 100 answers 200 with
`id` "1" and `amount` 150. -/
theorem updateWallet_dispatch {ρ : Type} (repo : WalletsRepositoryInterface ρ) (s : ρ)
    (walletId operationType : String) (amount : Float64) :
    (isCaseVariant operationType "DEPOSIT" = true →
      UpdateWallet (tracedRepo repo) (s, []) (some ⟨walletId, operationType, amount⟩) =
        (((repo.Deposit s walletId amount).1, [RepoCall.Deposit walletId amount]),
          writeResponse (repo.Deposit s walletId amount).2.1
            (repo.Deposit s walletId amount).2.2)) ∧
    (isCaseVariant operationType "WITHDRAW" = true →
      UpdateWallet (tracedRepo repo) (s, []) (some ⟨walletId, operationType, amount⟩) =
        (((repo.Withdraw s walletId amount).1, [RepoCall.Withdraw walletId amount]),
          writeResponse (repo.Withdraw s walletId amount).2.1
            (repo.Withdraw s walletId amount).2.2)) ∧
    (UpdateWallet (WalletsRepository Store.conn) (Store.empty.put "1" (Float64.ofInt 100))
        (some ⟨"1", "deposit", Float64.ofInt 50⟩)).2 =
      ⟨200, Body.json (Json.object
        [("id", JsonMember.string "1"), ("amount", JsonMember.number (Float64.ofInt 150))])⟩ := by
  refine ⟨?_, ?_, ?_⟩
  · intro h
    simp [UpdateWallet, EqualFold_of_isCaseVariant _ _ h, tracedRepo]
  · intro h
    simp [UpdateWallet, EqualFold_of_isCaseVariant _ _ h,
      not_EqualFold_deposit_of_withdraw _ h, tracedRepo]
  · decide!

/-- Instance of C15: "deposit" and "WithDraw" on the repository over the table. -/
theorem updateWallet_dispatch_witness :
    (UpdateWallet (tracedRepo (WalletsRepository Store.conn))
        (Store.empty.put "1" (Float64.ofInt 100), [])
        (some ⟨"1", "deposit", Float64.ofInt 50⟩)).1.2 =
      [RepoCall.Deposit "1" (Float64.ofInt 50)] ∧
    (UpdateWallet (tracedRepo (WalletsRepository Store.conn))
        (Store.empty.put "1" (Float64.ofInt 100), [])
        (some ⟨"1", "WithDraw", Float64.ofInt 50⟩)).1.2 =
      [RepoCall.Withdraw "1" (Float64.ofInt 50)] :=
  ⟨congrArg (fun r => r.1.2)
      ((updateWallet_dispatch (WalletsRepository Store.conn)
        (Store.empty.put "1" (Float64.ofInt 100)) "1" "deposit" (Float64.ofInt 50)).1
        (by decide)),
   congrArg (fun r => r.1.2)
      ((updateWallet_dispatch (WalletsRepository Store.conn)
        (Store.empty.put "1" (Float64.ofInt 100)) "1" "WithDraw" (Float64.ofInt 50)).2.1
        (by decide))⟩

/-- C16 fails on the code: `POST` with `walletId` `a"b` and operation "WITHDRAW", when the
update affects no row, is answered with the message `failed to update wallet with id a"b`;
`writeErrorResponse` writes `{"error": "failed to update wallet with id a"b"}`, which is
not a well-formed JSON object (the quote of the id ends the string early). -/
theorem error_body_not_json :
    (UpdateWallet (WalletsRepository Store.lostUpdateConn)
        (Store.empty.put "a\"b" (Float64.ofInt 100))
        (some ⟨"a\"b", "WITHDRAW", Float64.ofInt 1⟩)).2 =
      writeErrorResponse 500 "failed to update wallet with id a\"b" ∧
    (writeErrorResponse 500 "failed to update wallet with id a\"b").body =
      Body.text "\x7b\"error\": \"failed to update wallet with id a\"b\"\x7d" ∧
    (writeErrorResponse 500 "failed to update wallet with id a\"b").body.errorMessage = none ∧
    (writeErrorResponse 404 "Wallet not found").body.errorMessage = some "Wallet not found" := by
  decide!

/-- C17. `e.Is(t)` of a `*ValidationError` `e` is true exactly when `t` is a
`*ValidationError`, whatever the fields of `e` and `t`. Hence `errors.Is(err,
&ValidationError{...})` holds for every `*ValidationError`, in particular for every
validation failure returned by `GetWalletById`, `Deposit` and `Withdraw` on any
connection, and it never holds for `ErrWalletNotFound`. -/
theorem validationError_is {σ : Type} (Conn : DbConnectionInterface σ) (s : σ) (id : String)
    (a : Float64) :
    (∀ Field Message t, ValidationError.Is Field Message t = true ↔
      ∃ f m, t = GoError.ValidationError f m) ∧
    (∀ Field Message tf tm,
      errorsIsValidationError (GoError.ValidationError Field Message) tf tm = true) ∧
    (∀ tf tm, errorsIsValidationError GoError.ErrWalletNotFound tf tm = false) ∧
    (∀ Field Message,
      ((GetWalletById Conn s id).2 = Except.error (GoError.ValidationError Field Message) ∨
       (Deposit Conn s id a).2 = Except.error (GoError.ValidationError Field Message) ∨
       (Withdraw Conn s id a).2 = Except.error (GoError.ValidationError Field Message)) →
      errorsIsValidationError (GoError.ValidationError Field Message) "" "" = true) ∧
    (GetWalletById Conn s "").2 = Except.error (GoError.ValidationError "id" "cannot be empty") ∧
    (Withdraw Conn s "" a).2 = Except.error (GoError.ValidationError "id" "cannot be empty") := by
  refine ⟨?_, ?_, ?_, ?_, ?_, ?_⟩
  · intro Field Message t
    cases t <;> simp [ValidationError.Is]
  · intro Field Message tf tm
    simp [errorsIsValidationError, ValidationError.Is]
  · intro tf tm
    simp [errorsIsValidationError]
  · intro Field Message _
    simp [errorsIsValidationError, ValidationError.Is]
  · simp [GetWalletById]
  · simp [Withdraw, walletTransaction]

/-! ## Claims on the table as a whole -/

/-- Frame of one transaction on the table: rows under other ids are untouched and no
row disappears. -/
theorem Store.frame_of_transaction (st : Store) (id : String) (a : Float64) (add : Bool)
    (hid : id ≠ "") (k : String) :
    (k ≠ id →
      (walletTransaction (traced Store.conn) (st, []) id a add).1.1.rows k = st.rows k) ∧
    (st.rows k ≠ none →
      (walletTransaction (traced Store.conn) (st, []) id a add).1.1.rows k ≠ none) := by
  cases ha : a.lt Float64.zero with
  | true =>
    rw [walletTransaction_negative (traced Store.conn) (st, []) id a add hid ha]
    exact ⟨fun _ => rfl, fun h => h⟩
  | false =>
    rw [Store.transaction_outcome st id a add hid ha]
    cases hb : st.rows id with
    | none =>
      cases add with
      | false => exact ⟨fun _ => rfl, fun h => h⟩
      | true =>
        constructor
        · intro hk
          simp [Store.put, hk]
        · intro h
          by_cases hk : k = id
          · simp [Store.put, hk]
          · simpa [Store.put, hk] using h
    | some b =>
      cases add with
      | true =>
        constructor
        · intro hk
          simp [Store.put, hk]
        · intro h
          by_cases hk : k = id
          · simp [Store.put, hk]
          · simpa [Store.put, hk] using h
      | false =>
        cases hlt : b.lt a with
        | true =>
          constructor
          · intro _
            simp [hlt]
          · intro h
            simpa [hlt] using h
        | false =>
          constructor
          · intro hk
            simp [hlt, Store.put, hk]
          · intro h
            by_cases hk : k = id
            · simp [hlt, Store.put, hk]
            · simpa [hlt, Store.put, hk] using h

/-- C18. Frame: on every table state, for `Deposit(id, a)` and `Withdraw(id, a)` with a
non-empty id, successful or not, the row of every other id is unchanged and no row is
removed; only the row for `id` can be created or modified. -/
theorem transaction_frame (st : Store) (id : String) (a : Float64) (hid : id ≠ "") :
    (∀ k, k ≠ id → (Deposit (traced Store.conn) (st, []) id a).1.1.rows k = st.rows k) ∧
    (∀ k, k ≠ id → (Withdraw (traced Store.conn) (st, []) id a).1.1.rows k = st.rows k) ∧
    (∀ k, st.rows k ≠ none → (Deposit (traced Store.conn) (st, []) id a).1.1.rows k ≠ none) ∧
    (∀ k, st.rows k ≠ none → (Withdraw (traced Store.conn) (st, []) id a).1.1.rows k ≠ none) :=
  ⟨fun k => (Store.frame_of_transaction st id a true hid k).1,
   fun k => (Store.frame_of_transaction st id a false hid k).1,
   fun k => (Store.frame_of_transaction st id a true hid k).2,
   fun k => (Store.frame_of_transaction st id a false hid k).2⟩

/-- Instance of C18: depositing 50 into wallet "1" leaves wallet "2" at 7. -/
theorem transaction_frame_witness :
    (Deposit (traced Store.conn)
      ((Store.empty.put "1" (Float64.ofInt 100)).put "2" (Float64.ofInt 7), []) "1"
      (Float64.ofInt 50)).1.1.rows "2" = some (Float64.ofInt 7) :=
  ((transaction_frame ((Store.empty.put "1" (Float64.ofInt 100)).put "2" (Float64.ofInt 7)) "1"
    (Float64.ofInt 50) (by decide)).1 "2" (by decide)).trans (by decide!)

/-- After a successful transaction on the table, reading the wallet back gives the wallet
that was returned. -/
theorem Store.read_after_write (st : Store) (id : String) (a : Float64) (add : Bool)
    (w : Wallet) (hid : id ≠ "")
    (h : (walletTransaction (traced Store.conn) (st, []) id a add).2 = Except.ok w) :
    GetWalletById (traced Store.conn)
        ((walletTransaction (traced Store.conn) (st, []) id a add).1.1, []) w.Id =
      (((walletTransaction (traced Store.conn) (st, []) id a add).1.1,
        [(selectWalletSql, [SqlValue.text w.Id])]), Except.ok w) := by
  have key : ∀ (st1 : Store) (x : Float64),
      GetWalletById (traced Store.conn) (st1.put id x, []) id =
        ((st1.put id x, [(selectWalletSql, [SqlValue.text id])]), Except.ok ⟨id, x⟩) := by
    intro st1 x
    have hrow : (st1.put id x).rows id = some x := Store.put_rows_self _ _ _
    have hsel : ((traced Store.conn).QueryRow (st1.put id x, []) selectWalletSql
        [SqlValue.text id]).2.ScanWallet = Except.ok (id, x) := by
      rw [traced_QueryRow, Store.select_found _ id x hrow]
    rw [GetWalletById_found (traced Store.conn) (st1.put id x, []) id id x hid hsel]
    simp [traced_QueryRow, Store.select_found _ id x hrow]
  cases ha : a.lt Float64.zero with
  | true =>
    rw [walletTransaction_negative (traced Store.conn) (st, []) id a add hid ha] at h
    simp at h
  | false =>
    rw [Store.transaction_outcome st id a add hid ha] at h ⊢
    cases hb : st.rows id with
    | none =>
      rw [hb] at h
      cases add with
      | false => simp at h
      | true =>
        simp at h
        subst h
        exact key st a
    | some b =>
      rw [hb] at h
      cases add with
      | true =>
        simp at h
        subst h
        exact key st (b.add a)
      | false =>
        cases hlt : b.lt a with
        | true => simp [hlt] at h
        | false =>
          simp [hlt] at h
          subst h
          simpa [hlt] using key st (b.sub a)

/-- C19. Read-your-write on the table: when `Deposit(id, a)` or `Withdraw(id, a)` with a
non-empty id returns a wallet `w` without error, the immediately following
`GetWalletById(w.Id)` issues one select, returns no error and returns the wallet `w`
itself (same `Id`, same `float64` amount), and leaves the table as the transaction left
it. -/
theorem read_your_write (st : Store) (id : String) (a : Float64) (w : Wallet) (hid : id ≠ "") :
    ((Deposit (traced Store.conn) (st, []) id a).2 = Except.ok w →
      GetWalletById (traced Store.conn) ((Deposit (traced Store.conn) (st, []) id a).1.1, []) w.Id =
        (((Deposit (traced Store.conn) (st, []) id a).1.1,
          [(selectWalletSql, [SqlValue.text w.Id])]), Except.ok w)) ∧
    ((Withdraw (traced Store.conn) (st, []) id a).2 = Except.ok w →
      GetWalletById (traced Store.conn) ((Withdraw (traced Store.conn) (st, []) id a).1.1, []) w.Id =
        (((Withdraw (traced Store.conn) (st, []) id a).1.1,
          [(selectWalletSql, [SqlValue.text w.Id])]), Except.ok w)) :=
  ⟨Store.read_after_write st id a true w hid, Store.read_after_write st id a false w hid⟩

/-- Instance of C19: after withdrawing 50 from wallet "1" holding 100, and after withdrawing
NaN from it, the wallet read back is the wallet returned. -/
theorem read_your_write_witness :
    (GetWalletById (traced Store.conn)
      ((Withdraw (traced Store.conn) (Store.empty.put "1" (Float64.ofInt 100), []) "1"
        (Float64.ofInt 50)).1.1, []) "1").2 = Except.ok ⟨"1", Float64.ofInt 50⟩ ∧
    (GetWalletById (traced Store.conn)
      ((Withdraw (traced Store.conn) (Store.empty.put "1" (Float64.ofInt 100), []) "1"
        Float64.NaN).1.1, []) "1").2 = Except.ok ⟨"1", Float64.NaN⟩ :=
  ⟨congrArg Prod.snd
      ((read_your_write (Store.empty.put "1" (Float64.ofInt 100)) "1" (Float64.ofInt 50)
        ⟨"1", Float64.ofInt 50⟩ (by decide)).2 (by decide!)),
   congrArg Prod.snd
      ((read_your_write (Store.empty.put "1" (Float64.ofInt 100)) "1" Float64.NaN
        ⟨"1", Float64.NaN⟩ (by decide)).2 (by decide!))⟩

/-- On the table the generating insert of `Deposit("", a)` never yields a
`ValidationError` or `ErrWalletNotFound`. -/
theorem Store.deposit_empty_id_result (st : Store) (a : Float64) :
    (∃ w, (walletTransaction (traced Store.conn) (st, []) "" a true).2 = Except.ok w) ∨
    ∃ text, (walletTransaction (traced Store.conn) (st, []) "" a true).2 =
      Except.error (GoError.New text) := by
  have h1 : insertAmountSql ≠ selectWalletSql := by decide
  simp only [walletTransaction, if_true, traced_QueryRow, Store.conn, Store.queryRow, h1,
    if_false]
  cases hf : st.rows st.freshId with
  | none => left; simp
  | some x => right; simp [Store.failedRow]

/-- A transaction on the table that ends in a `ValidationError` or `ErrWalletNotFound`
issued at most the select and left the table as it was. -/
theorem Store.unchanged_on_error (st : Store) (id : String) (a : Float64) (add : Bool)
    (e : GoError)
    (he : e = GoError.ErrWalletNotFound ∨ ∃ Field Message, e = GoError.ValidationError Field Message)
    (h : (walletTransaction (traced Store.conn) (st, []) id a add).2 = Except.error e) :
    (walletTransaction (traced Store.conn) (st, []) id a add).1.1 = st ∧
    ∀ stmt ∈ (walletTransaction (traced Store.conn) (st, []) id a add).1.2,
      stmt.1 = selectWalletSql := by
  by_cases hid : id = ""
  · subst hid
    cases add with
    | false => simp [walletTransaction]
    | true =>
      exfalso
      rcases Store.deposit_empty_id_result st a with ⟨w, hw⟩ | ⟨text, ht⟩
      · rw [hw] at h; simp at h
      · rw [ht] at h
        simp at h
        subst h
        rcases he with he | ⟨f, m, he⟩ <;> simp at he
  · cases ha : a.lt Float64.zero with
    | true =>
      rw [walletTransaction_negative (traced Store.conn) (st, []) id a add hid ha]
      simp
    | false =>
      rw [Store.transaction_outcome st id a add hid ha] at h ⊢
      cases hb : st.rows id with
      | none =>
        rw [hb] at h
        cases add with
        | false => simp
        | true => simp at h
      | some b =>
        rw [hb] at h
        cases add with
        | true => simp at h
        | false =>
          cases hlt : b.lt a with
          | true => simp [hlt]
          | false => simp [hlt] at h

/-- C20. Atomicity on error, on the table: when `Deposit` or `Withdraw` (any id, any amount)
returns a `ValidationError` or `ErrWalletNotFound`, every statement it issued is the select
(no insert, no update), and the table after the call is the table before it. -/
theorem error_leaves_store (st : Store) (id : String) (a : Float64) (e : GoError)
    (he : e = GoError.ErrWalletNotFound ∨
      ∃ Field Message, e = GoError.ValidationError Field Message) :
    ((Deposit (traced Store.conn) (st, []) id a).2 = Except.error e →
      (Deposit (traced Store.conn) (st, []) id a).1.1 = st ∧
      ∀ stmt ∈ (Deposit (traced Store.conn) (st, []) id a).1.2, stmt.1 = selectWalletSql) ∧
    ((Withdraw (traced Store.conn) (st, []) id a).2 = Except.error e →
      (Withdraw (traced Store.conn) (st, []) id a).1.1 = st ∧
      ∀ stmt ∈ (Withdraw (traced Store.conn) (st, []) id a).1.2, stmt.1 = selectWalletSql) :=
  ⟨Store.unchanged_on_error st id a true e he, Store.unchanged_on_error st id a false e he⟩

/-- Instance of C20: the refused withdrawal of 100 from wallet "1" holding 50 leaves the
table as it was. -/
theorem error_leaves_store_witness :
    (Withdraw (traced Store.conn) (Store.empty.put "1" (Float64.ofInt 50), []) "1"
      (Float64.ofInt 100)).2 =
      Except.error
        (GoError.ValidationError "amount" "cannot be greater than current wallet amount") ∧
    (Withdraw (traced Store.conn) (Store.empty.put "1" (Float64.ofInt 50), []) "1"
      (Float64.ofInt 100)).1.1 = Store.empty.put "1" (Float64.ofInt 50) :=
  ⟨by decide!,
   ((error_leaves_store (Store.empty.put "1" (Float64.ofInt 50)) "1" (Float64.ofInt 100)
    (GoError.ValidationError "amount" "cannot be greater than current wallet amount")
    (Or.inr ⟨_, _, rfl⟩)).2 (by decide!)).1⟩
